import Mathlib

/-!
Verification of groceries.cpp: order assembly, catalog loading, report
rendering, interactive lookup and their error handling.

A shallow embedding of `src/groceries.cpp`.

* The three file-static tables (`customers`, `items`, `orders`) and the error
  stream `cerr` are the fields of `Globals`; every loader is a function from
  `Globals` to `Globals`.
* A file is the list of lines that successive `getline` calls return; a file
  that cannot be opened is `none`.
* `int` is `Int`; the only place where its range matters is `std::stoi`, which
  rejects values outside `[-2^31, 2^31 - 1]`.
* `double` is an arbitrary type `D` with the operations the program uses
  (`DoubleModel`); nothing proved for all `D` depends on how it rounds. Runs on
  concrete files are evaluated in `exactDouble`, exact rational arithmetic.
* A run that does not return normally ends in an `Abort`: an exception that
  nothing catches (the program has no `try`), or undefined behaviour
  (`operator[]` past the end of a vector, a store through a pointer to no
  object).
* `Order order;` (line 210) leaves the member `Payment* payment` (line 107)
  uninitialized. Whether the member then holds the null pointer is an input of
  the model (`is_null`). When it does not, it holds what the storage of the
  loop-local held before: the pointer that the last earlier iteration of the
  call assigned, which is the payment object of an order already pushed
  (`finish_order_stale`), or, before any assignment, the address of no object.
* The body of the loop of `read_orders` is cut in three at the places where it
  reads a line: `read_header` (lines 209-254), `select_payment` (lines 261-277)
  and `finish_payment` (lines 280-287); `read_orders_loop` puts them together.
* A stream is the string written to it. `print_order` returns its text and,
  apart from it, the values that the diagnostic of line 128 writes to `cerr`
  when it fires. Printing a `double` with two decimals and comparing two of
  them are operations of `DoubleOutput`.
* Standard input of `one_customer_order` is the list of the numbers that
  `cin >>` extracts; when it is exhausted the variable read into stays
  uninitialized. The counter `purchased` is counted in `Nat`.
-/

namespace Groceries

/-! ## Abnormal ends of a run -/

/-- Ways in which a run ends without returning. The program has no `try`
block, so an exception thrown by `std::stoi` / `std::stod` ends the process. -/
inductive Abort where
  /-- The exception `std::invalid_argument`: no conversion could be performed. -/
  | invalid_argument
  /-- The exception `std::out_of_range`: the converted value does not fit the result type. -/
  | out_of_range
  /-- An out-of-bounds `operator[]` or a write through a pointer that points
  to no object. -/
  | undefined_behaviour
deriving DecidableEq, Repr

/-- Equality of results is decidable, so that runs on concrete files can be
evaluated. -/
instance decEqExcept {ε α : Type} [DecidableEq ε] [DecidableEq α] : DecidableEq (Except ε α)
  | .ok a, .ok b =>
    if h : a = b then isTrue (by rw [h]) else isFalse (by intro h2; cases h2; exact h rfl)
  | .error a, .error b =>
    if h : a = b then isTrue (by rw [h]) else isFalse (by intro h2; cases h2; exact h rfl)
  | .ok _, .error _ => isFalse (by intro h; cases h)
  | .error _, .ok _ => isFalse (by intro h; cases h)

/-! ## Library functions used by the program -/

/-- The characters `std::isspace` accepts in the "C" locale. -/
def isspace (c : Char) : Bool :=
  c = ' ' || c.toNat = 9 || c.toNat = 10 || c.toNat = 11 || c.toNat = 12 || c.toNat = 13

/-- Value of a run of decimal digits, most significant first. -/
def digits_value (ds : List Char) : Nat :=
  ds.foldl (fun acc c => 10 * acc + (c.toNat - 48)) 0

/-- Optional sign in front of a number: `(negative, rest)`. -/
def take_sign : List Char → Bool × List Char
  | '-' :: r => (true, r)
  | '+' :: r => (false, r)
  | r => (false, r)

/-- The library function `std::stoi(s)` (base 10): skip leading white space, read an optional sign
and the longest run of digits, ignore whatever follows. Throws
`invalid_argument` when there is no digit and `out_of_range` when the value is
not an `int`. -/
def stoi (s : String) : Except Abort Int :=
  let r := take_sign (s.toList.dropWhile isspace)
  let ds := r.2.takeWhile Char.isDigit
  if ds = [] then .error .invalid_argument
  else
    let v : Int := if r.1 then -(digits_value ds : Int) else (digits_value ds : Int)
    if v < -2147483648 ∨ 2147483647 < v then .error .out_of_range else .ok v

/-- The arithmetic of `double` as far as the program uses it. -/
class DoubleModel (D : Type) where
  /-- The literal `0.0`. -/
  zero : D
  /-- The operator `+` on `double`. -/
  add : D → D → D
  /-- The operator `*` on `double`. -/
  mul : D → D → D
  /-- The conversion `int → double` applied to `quantity`. -/
  ofInt : Int → D
  /-- The library function `std::stod`. -/
  stod : String → Except Abort D

/-- The indexing `std::vector::operator[]`: defined only for an index below `size()`. -/
def index (v : List String) (i : Nat) : Except Abort String :=
  match v.get? i with
  | some s => .ok s
  | none => .error .undefined_behaviour

/-! ## The field splitter (`split.h`) -/

/-- Fields of `cs` between occurrences of `delim`; `cur` holds the current
field reversed. -/
def split_chars (delim : Char) : List Char → List Char → List (List Char)
  | [], cur => [cur.reverse]
  | c :: cs, cur =>
    if c = delim then cur.reverse :: split_chars delim cs []
    else split_chars delim cs (c :: cur)

/-- Modelled from the spec: `split` is declared in `split.h`, which is not
among the sources. Spec §4.1: the ordered sequence of substrings between
delimiter occurrences, empty fields preserved, no trimming; a line with no
delimiter yields a single-element sequence. -/
def split (line : String) (delim : Char) : List String :=
  (split_chars delim line.toList []).map String.mk

/-! ## Data model -/

/-- The source `struct Customer`. -/
structure Customer where
  customer_id : Int
  name : String
  street : String
  city : String
  state : String
  zip : String
  phone : String
  email : String
deriving DecidableEq, Repr

/-- The source `struct Item`. -/
structure Item (D : Type) where
  item_id : Int
  description : String
  price : D
deriving DecidableEq, Repr

/-- The source `struct LineItem`: holds a copy of the item. -/
structure LineItem (D : Type) where
  item : Item D
  quantity : Int
deriving DecidableEq, Repr

/-- The method `LineItem::sub_total`. -/
def LineItem.sub_total {D : Type} [DoubleModel D] (li : LineItem D) : D :=
  DoubleModel.mul li.item.price (DoubleModel.ofInt li.quantity)

/-- The source `struct Payment` with its three derived classes. `amount` is `none` for an
object that `new` has just created: the member has no initializer and is first
written by `Order::total`. -/
inductive Payment (D : Type) where
  | Credit (amount : Option D) (card_number expiration : String)
  | PayPal (amount : Option D) (paypal_id : String)
  | WireTransfer (amount : Option D) (bank_id account_id : String)
deriving DecidableEq, Repr

/-- The base-class member `Payment::amount`. -/
def Payment.amount {D : Type} : Payment D → Option D
  | .Credit a _ _ => a
  | .PayPal a _ => a
  | .WireTransfer a _ _ => a

/-- The assignment `payment->amount = v`. -/
def Payment.set_amount {D : Type} (v : D) : Payment D → Payment D
  | .Credit _ c e => .Credit (some v) c e
  | .PayPal _ p => .PayPal (some v) p
  | .WireTransfer _ b a => .WireTransfer (some v) b a

/-- A value of type `Payment*`: null; the address of an object made by `new`,
kept by value (orders that share one object hold equal values, see
`store_amount`); or `wild`, the non-null value that the uninitialized member
of a fresh `Order` holds. What `wild` points to depends on what the storage of
the loop-local held before (`finish_payment`): the object an earlier
iteration assigned, or no object at all. -/
inductive PaymentPtr (D : Type) where
  | nullptr
  | obj (p : Payment D)
  | wild
deriving DecidableEq, Repr

/-- The source `struct Order`. `customer` is a `Customer*` into the `customers` vector,
kept as the index it points at. -/
structure Order (D : Type) where
  order_id : Int
  order_date : String
  sum : D
  customer : Nat
  line_items : List (LineItem D)
  payment : PaymentPtr D
deriving DecidableEq, Repr

/-- The sum `Order::total` accumulates: starting from `0.0`, add each line
item's `sub_total` in order. -/
def sum_line_items {D : Type} [DoubleModel D] (lis : List (LineItem D)) : D :=
  lis.foldl (fun s li => DoubleModel.add s li.sub_total) DoubleModel.zero

/-- The method `Order::total`: recompute `sum`, then store it through
`payment`, for an order whose `payment` is its own object. A null pointer, or
an uninitialized one for which no earlier iteration left an object, makes the
store undefined; the store through a pointer that an earlier iteration left
is `finish_order_stale`. -/
def Order.total {D : Type} [DoubleModel D] (o : Order D) : Except Abort (Order D) :=
  let sum := sum_line_items o.line_items
  match o.payment with
  | .obj p => .ok { o with sum := sum, payment := .obj (p.set_amount sum) }
  | _ => .error .undefined_behaviour

/-- The file-static `customers`, `items`, `orders`, and the lines written to
`cerr` (each diagnostic ends in `endl`, so one entry is one reported error). -/
structure Globals (D : Type) where
  customers : List Customer
  items : List (Item D)
  orders : List (Order D)
  cerr : List String
deriving DecidableEq, Repr

/-- State at program start: empty tables, nothing reported. -/
def Globals.init {D : Type} : Globals D :=
  { customers := [], items := [], orders := [], cerr := [] }

/-! ## Catalog loaders -/

/-- Body of the `while (getline ...)` loop of `read_customers`. -/
def read_customers_line {D : Type} (line : String) (st : Globals D) :
    Except Abort (Globals D) :=
  match split line ',' with
  | [f0, f1, f2, f3, f4, f5, f6, f7] => do
    let customer_id ← stoi f0
    pure { st with customers := st.customers ++
      [{ customer_id := customer_id, name := f1, street := f2, city := f3,
         state := f4, zip := f5, phone := f6, email := f7 }] }
  | _ => pure { st with cerr := st.cerr ++ ["Error: Not enough fields in line. " ++ line] }

/-- The `while (getline ...)` loop of `read_customers`. -/
def read_customers_loop {D : Type} : List String → Globals D → Except Abort (Globals D)
  | [], st => pure st
  | line :: rest, st => do
    let st' ← read_customers_line line st
    read_customers_loop rest st'

/-- The function `read_customers(file)`; `content` is what opening `file` gives. -/
def read_customers {D : Type} (file : String) (content : Option (List String))
    (st : Globals D) : Except Abort (Globals D) :=
  match content with
  | some lines => read_customers_loop lines st
  | none => pure { st with cerr := st.cerr ++ ["Error: File not open. " ++ file] }

/-- Body of the `while (getline ...)` loop of `read_items`. -/
def read_items_line {D : Type} [DoubleModel D] (line : String) (st : Globals D) :
    Except Abort (Globals D) :=
  match split line ',' with
  | [f0, f1, f2] => do
    let item_id ← stoi f0
    let price ← (DoubleModel.stod f2 : Except Abort D)
    pure { st with items := st.items ++
      [{ item_id := item_id, description := f1, price := price }] }
  | _ => pure { st with cerr := st.cerr ++ ["Error: Not enough fields in this line. " ++ line] }

/-- The `while (getline ...)` loop of `read_items`. -/
def read_items_loop {D : Type} [DoubleModel D] :
    List String → Globals D → Except Abort (Globals D)
  | [], st => pure st
  | line :: rest, st => do
    let st' ← read_items_line line st
    read_items_loop rest st'

/-- The function `read_items(file)`; `content` is what opening `file` gives. -/
def read_items {D : Type} [DoubleModel D] (file : String) (content : Option (List String))
    (st : Globals D) : Except Abort (Globals D) :=
  match content with
  | some lines => read_items_loop lines st
  | none => pure { st with cerr := st.cerr ++ ["Error: file not open. " ++ file] }

/-! ## Order assembler -/

/-- The customer search of `read_orders` (lines 220-226): the position of the
first record whose id is `customer_id`, or `none` for `nullptr`. -/
def find_customer : List Customer → Int → Option Nat
  | [], _ => none
  | c :: cs, customer_id =>
    if c.customer_id = customer_id then some 0
    else (find_customer cs customer_id).map (· + 1)

/-- The item search of `read_orders` (lines 241-247): the first record whose id
is `item_id`, or `none` for `nullptr`. -/
def find_item {D : Type} : List (Item D) → Int → Option (Item D)
  | [], _ => none
  | itm :: rest, item_id =>
    if itm.item_id = item_id then some itm else find_item rest item_id

/-- Lines 236-238: split an item token on `-` and convert both parts. -/
def parse_token (tok : String) : Except Abort (Int × Int) := do
  let item_data := split tok '-'
  let f0 ← index item_data 0
  let item_id ← stoi f0
  let f1 ← index item_data 1
  let quantity ← stoi f1
  pure (item_id, quantity)

/-- The line-item loop (lines 235-254) over the tokens `fields[3..]`; carries
`order.line_items` and `cerr`. -/
def line_items_loop {D : Type} (items : List (Item D)) :
    List String → List (LineItem D) → List String →
    Except Abort (List (LineItem D) × List String)
  | [], line_items, cerr => pure (line_items, cerr)
  | tok :: toks, line_items, cerr => do
    let (item_id, quantity) ← parse_token tok
    match find_item items item_id with
    | some item =>
      line_items_loop items toks (line_items ++ [{ item := item, quantity := quantity }]) cerr
    | none =>
      line_items_loop items toks line_items
        (cerr ++ ["Error: Item ID " ++ toString item_id ++ " not found."])

/-- Lines 261-277: choose the payment from the fields of the payment line;
`payment` is the value `order.payment` has before. -/
def select_payment {D : Type} (fields : List String) (payment : PaymentPtr D) :
    Except Abort (PaymentPtr D) :=
  if fields.length ≤ 3 then do
    let f0 ← index fields 0
    if f0 = "1" then do
      let card_number ← index fields 1
      let expiration ← index fields 2
      pure (.obj (.Credit none card_number expiration))
    else if f0 = "2" then do
      let paypal_id ← index fields 1
      pure (.obj (.PayPal none paypal_id))
    else if f0 = "3" then do
      let bank_id ← index fields 1
      let account_id ← index fields 2
      pure (.obj (.WireTransfer none bank_id account_id))
    else pure payment
  else pure payment

/-- Lines 280-287: the null test on `order.payment`, then `total()` and
`push_back`. -/
def finish_order {D : Type} [DoubleModel D] (order : Order D) (st : Globals D) :
    Except Abort (Globals D) :=
  match order.payment with
  | .nullptr =>
    pure { st with cerr := st.cerr ++
      ["Error: Payment not initialized for order ID " ++ toString order.order_id] }
  | _ => do
    let order' ← order.total
    pure { st with orders := st.orders ++ [order'] }

/-- The value of the member `payment` of a default-initialized `Order`
(`Order order;`, line 210): the member has no initializer, so it holds whatever
was in memory. `is_null` tells whether that happens to be the null pointer;
otherwise it is what the storage held before, `wild`. -/
def uninitialized_payment {D : Type} (is_null : Bool) : PaymentPtr D :=
  if is_null then .nullptr else .wild

/-- How the first half of a loop iteration of `read_orders` (lines 209-254)
ends. -/
inductive Header (D : Type) where
  /-- The iteration is over: `continue` at line 231, or the `else` branch at
  line 289. The next line read is read as a header. -/
  | next (st : Globals D)
  /-- The order has its customer and its line items; control is at line 257,
  about to read the payment line. -/
  | awaiting (order : Order D) (st : Globals D)

/-- Lines 209-254 of `read_orders`: split the header line, test the field
count, convert the ids, find the customer, build the line items. `is_null`
tells what the uninitialized `payment` member of `order` holds. -/
def read_header {D : Type} [DoubleModel D] (is_null : Bool) (line : String)
    (st : Globals D) : Except Abort (Header D) :=
  match split line ',' with
  | f0 :: f1 :: f2 :: tok :: toks => do
    let customer_id ← stoi f0
    let order_id ← stoi f1
    match find_customer st.customers customer_id with
    | none =>
      pure (.next { st with cerr := st.cerr ++
        ["Error: Customer ID " ++ toString customer_id ++ " not found."] })
    | some cust => do
      let (line_items, cerr) ← line_items_loop st.items (tok :: toks) [] st.cerr
      pure (.awaiting
        { order_id := order_id, order_date := f2, sum := DoubleModel.zero,
          customer := cust, line_items := line_items,
          payment := uninitialized_payment is_null }
        { st with cerr := cerr })
  | _ =>
    pure (.next { st with cerr := st.cerr ++ ["Error: Unexpected format in line: " ++ line] })

/-- The store `payment->amount = sum` (line 116) through a pointer shared by
the orders at positions `n` and up of `orders`: the order pushed when the
pointer was assigned is at position `n`, and every order pushed after it
without a new assignment holds a copy of the same pointer, so each of them
sees the new amount. -/
def store_amount {D : Type} (sum : D) : Nat → List (Order D) → List (Order D)
  | _, [] => []
  | 0, o :: rest =>
    { o with payment := match o.payment with
        | .obj p => .obj (p.set_amount sum)
        | q => q } :: store_amount sum 0 rest
  | n + 1, o :: rest => o :: store_amount sum n rest

/-- Lines 280-287 for an order whose uninitialized `payment` still holds the
pointer that an earlier iteration assigned, the one of the order at position
`n` of `orders`: the null test of line 281 passes, `total()` sets the order's
`sum` and stores it in the other order's payment object (line 116), and the
order is pushed with a copy of that pointer (line 287). -/
def finish_order_stale {D : Type} [DoubleModel D] (n : Nat) (order : Order D)
    (st : Globals D) : Except Abort (Globals D) :=
  match st.orders.get? n with
  | some owner =>
    match owner.payment with
    | .obj p =>
      let sum := sum_line_items order.line_items
      .ok { st with orders := store_amount sum n st.orders ++
        [{ order with sum := sum, payment := .obj (p.set_amount sum) }] }
    | _ => .error .undefined_behaviour
  | none => .error .undefined_behaviour

/-- Lines 280-287 with the storage of the loop-local `order`. `slot` tells what
that storage holds from earlier iterations of this call: `some n` when the
last pointer assigned to `order.payment` is the one of the order at position
`n` of `orders`, `none` when no iteration has assigned one yet. An order with
its own new object goes through `finish_order` and its position becomes the
slot; an order whose member is uninitialized and not null holds what the slot
holds. The result is the new state and the new slot. -/
def finish_payment {D : Type} [DoubleModel D] (slot : Option Nat) (order : Order D)
    (st : Globals D) : Except Abort (Globals D × Option Nat) :=
  match order.payment, slot with
  | .wild, some n => do
    let st' ← finish_order_stale n order st
    pure (st', slot)
  | .obj _, _ => do
    let st' ← finish_order order st
    pure (st', some st.orders.length)
  | _, _ => do
    let st' ← finish_order order st
    pure (st', slot)

/-- The `while (getline(order_file, line))` loop of `read_orders` over the
lines not yet read. After `read_header`, an order that awaits its payment
takes the next line, if there is one, as its payment line (line 257), selects
the payment and goes through `finish_payment`; otherwise the next line is the
next header. `is_null k` tells whether the uninitialized `payment` member of
the `Order` declared for a header with `k` lines after it is null; `slot` is
what the storage of that member holds from earlier iterations. -/
def read_orders_loop {D : Type} [DoubleModel D] (is_null : Nat → Bool) :
    List String → Option Nat → Globals D → Except Abort (Globals D)
  | [], _, st => pure st
  | [line], slot, st => do
    match ← read_header (is_null 0) line st with
    | .next st' => pure st'
    | .awaiting order st' => do
      let r ← finish_payment slot order st'
      pure r.1
  | line :: pline :: rest, slot, st => do
    match ← read_header (is_null (rest.length + 1)) line st with
    | .next st' => read_orders_loop is_null (pline :: rest) slot st'
    | .awaiting order st' => do
      let payment ← select_payment (split pline ',') order.payment
      let r ← finish_payment slot { order with payment := payment } st'
      read_orders_loop is_null rest r.2 r.1

/-- The function `read_orders(file)`; `content` is what opening `file` gives. -/
def read_orders {D : Type} [DoubleModel D] (is_null : Nat → Bool) (file : String)
    (content : Option (List String)) (st : Globals D) : Except Abort (Globals D) :=
  match content with
  | some lines => read_orders_loop is_null lines none st
  | none => pure { st with cerr := st.cerr ++ ["Error: Could not open file " ++ file] }

/-! ## An exact model of `double` -/

/-- Exponent part of a decimal literal of `std::stod`: `e` or `E`, an
optional sign and at least one digit; anything else is not part of the number
and counts as exponent 0. -/
def stod_exponent : List Char → Int
  | c :: t =>
    if c = 'e' ∨ c = 'E' then
      let r := take_sign t
      let ds := r.2.takeWhile Char.isDigit
      if ds = [] then 0
      else if r.1 then -(digits_value ds : Int) else (digits_value ds : Int)
    else 0
  | [] => 0

/-- The library function `std::stod(s)` on decimal literals, with exact
values: optional white space, sign, digits, optional `.` and digits, optional
exponent; whatever follows is ignored, and `invalid_argument` is thrown when
there is no digit. The hexadecimal form and the words `inf` and `nan`, which
`std::stod` also reads, have no exact counterpart here, and no
`out_of_range` arises since no value is too large for `Rat`. -/
def stod_exact (s : String) : Except Abort Rat :=
  let r := take_sign (s.toList.dropWhile isspace)
  let ip := r.2.takeWhile Char.isDigit
  let after_ip := r.2.dropWhile Char.isDigit
  let fp := match after_ip with
    | '.' :: t => t.takeWhile Char.isDigit
    | _ => []
  let after_fp := match after_ip with
    | '.' :: t => t.dropWhile Char.isDigit
    | t => t
  if ip = [] ∧ fp = [] then .error .invalid_argument
  else
    let e := stod_exponent after_fp
    let v : Rat :=
      if 0 ≤ e then mkRat (digits_value (ip ++ fp) * 10 ^ e.toNat) (10 ^ fp.length)
      else mkRat (digits_value (ip ++ fp)) (10 ^ (fp.length + (-e).toNat))
    .ok (if r.1 then -v else v)

/-- Exact rational arithmetic as a model of `double`: it agrees with binary64
whenever every value involved is a binary64 number and no rounding occurs
(for instance 0.5, 2, 1.5, 3.5). It has no infinity and no NaN, and its
reader covers the decimal literals only. -/
instance exactDouble : DoubleModel Rat where
  zero := mkRat 0 1
  add a b := mkRat (a.num * b.den + b.num * a.den) (a.den * b.den)
  mul a b := mkRat (a.num * b.num) (a.den * b.den)
  ofInt n := mkRat n 1
  stod := stod_exact

/-! ## Vocabulary of the statements -/

/-- An item token `<item-id>-<quantity>`: splitting on `-` gives at least two
parts and `stoi` accepts the first two. -/
def WellFormedToken (tok : String) (item_id quantity : Int) : Prop :=
  ∃ a b more, split tok '-' = a :: b :: more ∧ stoi a = .ok item_id ∧ stoi b = .ok quantity

/-- An order header `customer_id,order_id,date,token,...`: more than 3 fields,
ids that `stoi` accepts, and well-formed tokens whose `(item id, quantity)`
pairs are `parsed`. -/
def WellFormedHeader (line : String) (customer_id order_id : Int) (date : String)
    (parsed : List (Int × Int)) : Prop :=
  ∃ f0 f1 tok toks, split line ',' = f0 :: f1 :: date :: tok :: toks ∧
    stoi f0 = .ok customer_id ∧ stoi f1 = .ok order_id ∧
    List.Forall₂ (fun t (pr : Int × Int) => WellFormedToken t pr.1 pr.2) (tok :: toks) parsed

/-- A payment line as the file format gives it (spec §6): `1,card,expiration`,
`2,account` or `3,bank,account`. -/
def ValidPaymentLine (pline : String) : Prop :=
  (∃ a b, split pline ',' = ["1", a, b]) ∨ (∃ a, split pline ',' = ["2", a]) ∨
    (∃ a b, split pline ',' = ["3", a, b])

/-- Whether some record of the item table has id `item_id`. -/
def known_item {D : Type} (items : List (Item D)) (item_id : Int) : Bool :=
  items.any (fun itm => decide (itm.item_id = item_id))

/-- Whether some record of the customer table has id `customer_id`. -/
def known_customer (customers : List Customer) (customer_id : Int) : Bool :=
  customers.any (fun c => decide (c.customer_id = customer_id))

/-- The line items the tokens `parsed` give against `items`: one per token
whose id `find_item` finds, in token order. -/
def resolved_line_items {D : Type} (items : List (Item D)) (parsed : List (Int × Int)) :
    List (LineItem D) :=
  parsed.filterMap (fun pr => (find_item items pr.1).map (fun itm => { item := itm, quantity := pr.2 }))

/-- The diagnostics the tokens `parsed` give against `items`: one per token
whose id `find_item` does not find, in token order. -/
def item_complaints {D : Type} (items : List (Item D)) (parsed : List (Int × Int)) :
    List String :=
  (parsed.filter (fun pr => (find_item items pr.1).isNone)).map
    (fun pr => "Error: Item ID " ++ toString pr.1 ++ " not found.")

/-- An order as `Order::total` leaves it: `sum` is the accumulated sum of the
line items and the payment object holds the same amount. -/
def Totalled {D : Type} [DoubleModel D] (o : Order D) : Prop :=
  o.sum = sum_line_items o.line_items ∧ ∃ p, o.payment = .obj p ∧ p.amount = some o.sum

/-- What `read_orders_loop` does to the tables: customers and items stay, and
the orders gain a list of orders that `Order::total` has gone through. -/
def Appends {D : Type} [DoubleModel D] (st st' : Globals D) : Prop :=
  st'.customers = st.customers ∧ st'.items = st.items ∧
    ∃ new, st'.orders = st.orders ++ new ∧ ∀ o ∈ new, Totalled o

/-- The order that lines 210-287 append for a header with order id
`order_id` and date `order_date`, customer `cust`, line items `line_items`
and the payment object `p` selected from its payment line. -/
def assembled_order {D : Type} [DoubleModel D] (order_id : Int) (order_date : String)
    (cust : Nat) (line_items : List (LineItem D)) (p : Payment D) : Order D :=
  { order_id := order_id, order_date := order_date, sum := sum_line_items line_items,
    customer := cust, line_items := line_items,
    payment := .obj (p.set_amount (sum_line_items line_items)) }

/-- The record a customer line stands for (spec §4.2): fields 0..7 are, in
that order, id, name, street, city, state, zip, phone, email; the id is the
integer `stoi` reads from field 0. -/
def customer_of_line (line : String) : Customer :=
  let f := split line ','
  { customer_id := match stoi (f.getD 0 "") with
      | .ok n => n
      | .error _ => 0,
    name := f.getD 1 "", street := f.getD 2 "", city := f.getD 3 "", state := f.getD 4 "",
    zip := f.getD 5 "", phone := f.getD 6 "", email := f.getD 7 "" }

/-- A well-formed item line `id,description,price` standing for the record
`r`: exactly 3 fields, `stoi` accepts the id and `stod` the price. -/
def WellFormedItemLine {D : Type} [DoubleModel D] (line : String) (r : Item D) : Prop :=
  ∃ f0 f2, split line ',' = [f0, r.description, f2] ∧ stoi f0 = .ok r.item_id ∧
    (DoubleModel.stod f2 : Except Abort D) = .ok r.price

/-- The orders file made of the given (header, payment line) pairs. -/
def lines_of_pairs : List (String × String) → List String
  | [] => []
  | pr :: rest => pr.1 :: pr.2 :: lines_of_pairs rest

/-- A well-formed (header, payment line) pair for the order id `order_id`: the
header has more than 3 fields, ids and tokens that parse, a customer id that
is in `customers`, and the payment line is a valid one. -/
def WellFormedPair (customers : List Customer) (pr : String × String) (order_id : Int) :
    Prop :=
  (∃ cid date parsed, WellFormedHeader pr.1 cid order_id date parsed ∧
    known_customer customers cid = true) ∧ ValidPaymentLine pr.2

/-! ## The end-to-end example of the spec (§8) -/

/-- The customers file of the example. -/
def example_customers : List String :=
  ["1,Jane Doe,1 Main St,Springfield,IL,62704,555-1234,jane@x.com"]

/-- The items file of the example. -/
def example_items : List String := ["10,Apple,0.50", "20,Bread,2.00"]

/-- The orders file of the example. -/
def example_orders : List String := ["1,100,2024-01-01,10-3,20-1", "1,4567,12/25"]

/-- The customer record of the example. -/
def jane : Customer :=
  { customer_id := 1, name := "Jane Doe", street := "1 Main St", city := "Springfield",
    state := "IL", zip := "62704", phone := "555-1234", email := "jane@x.com" }

/-- The item record `10,Apple,0.50`; the price is 1/2. -/
def apple : Item Rat := { item_id := 10, description := "Apple", price := mkRat 1 2 }

/-- The item record `20,Bread,2.00`. -/
def bread : Item Rat := { item_id := 20, description := "Bread", price := mkRat 2 1 }

/-- The tables after `read_customers` and `read_items` on the example files. -/
def example_tables : Globals Rat :=
  { customers := [jane], items := [apple, bread], orders := [], cerr := [] }

/-- A second item record with the id of `apple`. -/
def pear : Item Rat := { item_id := 10, description := "Pear", price := mkRat 3 4 }

/-- A second customer record with the id of `jane`. -/
def joan : Customer :=
  { customer_id := 1, name := "Joan Doe", street := "9 Elm St", city := "Shelbyville",
    state := "IL", zip := "62565", phone := "555-4321", email := "joan@x.com" }

/-- Tables with duplicate ids: `pear` after `apple`, `joan` after `jane`. -/
def duplicate_tables : Globals Rat :=
  { customers := [jane, joan], items := [apple, pear, bread], orders := [], cerr := [] }

/-- The function `main` up to the report: the three loaders in order, from empty tables. -/
def load_all {D : Type} [DoubleModel D] (is_null : Nat → Bool)
    (customers_txt items_txt orders_txt : Option (List String)) : Except Abort (Globals D) := do
  let s1 ← read_customers "customers.txt" customers_txt Globals.init
  let s2 ← read_items "items.txt" items_txt s1
  read_orders is_null "orders.txt" orders_txt s2

/-! ## Report renderer -/

/-- Printing and comparing `double` values, as far as the program does. -/
class DoubleOutput (D : Type) where
  /-- The text that `stream << fixed << setprecision(2) << x` writes. -/
  fixed2 : D → String
  /-- The comparison `x != y`. -/
  ne : D → D → Bool

/-- The method `Customer::print_detail` (lines 22-30). -/
def Customer.print_detail (c : Customer) : String :=
  "Customer ID #" ++ toString c.customer_id ++ ":\n" ++
    c.name ++ " ph. " ++ c.phone ++ ", email: " ++ c.email ++ "\n" ++
    c.street ++ "\n" ++ c.city ++ ", " ++ c.state ++ " " ++ c.zip ++ "\n"

/-- The three overrides of `Payment::print_detail` (lines 64-97). Printing an
amount that has never been written reads an indeterminate value. -/
def Payment.print_detail {D : Type} [DoubleOutput D] : Payment D → Except Abort String
  | .Credit (some amount) card_number expiration =>
    .ok ("Amount: $" ++ DoubleOutput.fixed2 amount ++ ", Paid by Credit card " ++ card_number ++
      ", exp. " ++ expiration ++ "\n")
  | .PayPal (some amount) paypal_id =>
    .ok ("Amount: $" ++ DoubleOutput.fixed2 amount ++ ", Paid by Paypal ID: " ++ paypal_id ++ "\n")
  | .WireTransfer (some amount) bank_id account_id =>
    .ok ("Amount: $" ++ DoubleOutput.fixed2 amount ++ ", Paid by Wire transfer from Bank ID " ++
      bank_id ++ ", Account # " ++ account_id ++ "\n")
  | _ => .error .undefined_behaviour

/-- The text one iteration of the loop of lines 134-138 writes. -/
def item_line {D : Type} [DoubleOutput D] (li : LineItem D) : String :=
  "\tItem " ++ toString li.item.item_id ++ ": \"" ++ li.item.description ++ "\", " ++
    toString li.quantity ++ " @ " ++ DoubleOutput.fixed2 li.item.price ++ "\n"

/-- The first thing `print_order` writes (lines 124-125): the text `\nOrder #`
in a field of width 50, filled on the left with `-`. -/
def order_banner : String :=
  String.mk (List.replicate (50 - "\nOrder #".length) '-') ++ "\nOrder #"

/-- The method `Order::print_order` (lines 122-140). `customers` is the vector
`order.customer` points into. The result is the string returned and, when the
test of line 127 fires, the two amounts and the order id that the diagnostic of
line 128 writes to `cerr`. Calling through a `payment` or `customer` that
points to no object is undefined. -/
def Order.print_order {D : Type} [DoubleOutput D] (customers : List Customer) (o : Order D) :
    Except Abort (String × Option (D × D × Int)) :=
  match o.payment with
  | .obj p => do
    let detail ← p.print_detail
    let amount ← match p.amount with
      | some a => (pure a : Except Abort D)
      | none => .error .undefined_behaviour
    let debug := if DoubleOutput.ne amount o.sum then some (amount, o.sum, o.order_id) else none
    let ss := order_banner ++ toString o.order_id ++ ", Date: " ++ o.order_date ++ "\n\n" ++
      detail ++ "\n"
    match customers.get? o.customer with
    | some c =>
      let ss := ss ++ c.print_detail ++ "\n" ++ "Order Detail:" ++ "\n"
      pure (o.line_items.foldl (fun ss li => ss ++ item_line li) ss, debug)
    | none => .error .undefined_behaviour
  | _ => .error .undefined_behaviour

/-- Two-decimal rendering of an exact rational: round to the nearest hundredth,
ties to even, as `printf` does on the exact value of a `double`. -/
def fixed2_exact (q : Rat) : String :=
  let n := q.num.natAbs * 100
  let quo := n / q.den
  let rem := n % q.den
  let r := if q.den < 2 * rem then quo + 1
    else if 2 * rem = q.den then (if quo % 2 = 0 then quo else quo + 1)
    else quo
  (if q.num < 0 then "-" else "") ++ toString (r / 100) ++ "." ++
    (if r % 100 < 10 then "0" else "") ++ toString (r % 100)

/-- Output of the exact model of `double`. -/
instance exactOutput : DoubleOutput Rat where
  fixed2 := fixed2_exact
  ne a b := decide (a ≠ b)

/-- The order of the end-to-end example, as `read_orders` assembles it. -/
def example_order : Order Rat :=
  { order_id := 100, order_date := "2024-01-01", sum := mkRat 7 2, customer := 0,
    line_items := [{ item := apple, quantity := 3 }, { item := bread, quantity := 1 }],
    payment := .obj (.Credit (some (mkRat 7 2)) "4567" "12/25") }

/-! ## Interactive lookup -/

/-- How `one_customer_order` returns. `cout` is everything written to standard
output, `cin` the numbers left unread on standard input. -/
inductive Session (D : Type) where
  /-- The return of line 318, before `purchased` and `total` are declared. -/
  | not_found (cout : String) (cin : List Int)
  /-- The end of the function, with the final values of the locals `purchased`
  and `total`. -/
  | done (cout : String) (cin : List Int) (purchased : Nat) (total : D)
deriving DecidableEq, Repr

/-- The customer search of `one_customer_order` (lines 309-315). -/
def customer_found : List Customer → Int → Bool
  | [], _ => false
  | cust :: rest, customerInput =>
    if cust.customer_id = customerInput then true else customer_found rest customerInput

/-- The item search of `one_customer_order` (lines 331-338): it runs over the
whole table, with no `break`; carries `total`, `purchased` and `item_found`. -/
def search_items {D : Type} [DoubleModel D] (itemInput : Int) :
    List (Item D) → D × Nat × Bool → D × Nat × Bool
  | [], acc => acc
  | itm :: rest, (total, purchased, item_found) =>
    if itm.item_id = itemInput then
      search_items itemInput rest (DoubleModel.add total itm.price, purchased + 1, true)
    else search_items itemInput rest (total, purchased, item_found)

/-- The `while (true)` loop of `one_customer_order` (lines 324-342) and the
summary of lines 343-344. Standard input is the list of the numbers that
`cin >> itemInput` extracts; when it is exhausted the extraction fails and the
test of line 328 reads the uninitialized `itemInput`. -/
def item_loop {D : Type} [DoubleModel D] [DoubleOutput D] (items : List (Item D)) :
    List Int → String → Nat → D → Except Abort (Session D)
  | [], _, _, _ => .error .undefined_behaviour
  | itemInput :: cin, cout, purchased, total =>
    let cout := cout ++ "Enter item id (0 to exit): "
    if itemInput = 0 then
      .ok (.done
        (cout ++ "Number of items purchased: " ++ toString purchased ++ " Total: $" ++
          DoubleOutput.fixed2 total ++ "\n")
        cin purchased total)
    else
      match search_items itemInput items (total, purchased, false) with
      | (total', purchased', item_found) =>
        item_loop items cin
          (if item_found then cout else cout ++ "Item not found: " ++ toString itemInput ++ "\n")
          purchased' total'

/-- The function `one_customer_order` (lines 299-345) on the tables `st` and
the standard input `cin`. -/
def one_customer_order {D : Type} [DoubleModel D] [DoubleOutput D] (st : Globals D)
    (cin : List Int) : Except Abort (Session D) :=
  let cout := "Customers: " ++ toString st.customers.length ++ " Items: " ++
    toString st.items.length ++ "\n" ++ "Enter customer id: "
  match cin with
  | [] => .error .undefined_behaviour
  | customerInput :: cin =>
    if customer_found st.customers customerInput then
      item_loop st.items cin cout 0 DoubleModel.zero
    else
      .ok (.not_found
        (cout ++ "Customer with id " ++ toString customerInput ++ " not found." ++ "\n") cin)

/-! ## Vocabulary for the interactive lookup and for diagnostics -/

/-- The records of the item table whose id is `item_id`, in table order. -/
def matching_items {D : Type} (items : List (Item D)) (item_id : Int) : List (Item D) :=
  items.filter (fun itm => decide (itm.item_id = item_id))

/-- What a session writes for the entered item ids `ids` (none of them 0): the
prompt for each, followed by the not-found line when no record has the id. -/
def lookup_transcript {D : Type} (items : List (Item D)) : List Int → String
  | [] => ""
  | id :: ids =>
    "Enter item id (0 to exit): " ++
      (if known_item items id then "" else "Item not found: " ++ toString id ++ "\n") ++
      lookup_transcript items ids

/-- The lines of the order detail: the text of `item_line` for each line item,
in line-item order. -/
def item_lines {D : Type} [DoubleOutput D] : List (LineItem D) → String
  | [] => ""
  | li :: rest => item_line li ++ item_lines rest

/-- The order `o` refers to the tables as the header line `line` says: the
line has more than 3 fields, `o.customer` points at a customer record whose id
is the line's customer id, and every line item holds a record of the item
table whose id, with the line item's quantity, is what one of the line's
tokens gives. -/
def RefersTo {D : Type} (customers : List Customer) (items : List (Item D)) (line : String)
    (o : Order D) : Prop :=
  ∃ f0 f1 f2 tok toks cid c, split line ',' = f0 :: f1 :: f2 :: tok :: toks ∧
    stoi f0 = .ok cid ∧ customers.get? o.customer = some c ∧ c.customer_id = cid ∧
    ∀ li ∈ o.line_items, li.item ∈ items ∧
      ∃ t ∈ tok :: toks, parse_token t = .ok (li.item.item_id, li.quantity)

/-- What a run of `read_orders_loop` over `lines` does to the tables: customers
and items stay, and every order it appends refers to them as one of the lines
says. -/
def AppendsFrom {D : Type} (lines : List String) (st st' : Globals D) : Prop :=
  st'.customers = st.customers ∧ st'.items = st.items ∧
    ∃ new, st'.orders = st.orders ++ new ∧
      ∀ o ∈ new, ∃ line ∈ lines, RefersTo st.customers st.items line o

/-- The state `st` with the lines `pre` put in front of its `cerr`. -/
def prepend_cerr {D : Type} (pre : List String) (st : Globals D) : Globals D :=
  { st with cerr := pre ++ st.cerr }

/-- The same for the result of `read_header`. -/
def Header.prepend_cerr {D : Type} (pre : List String) : Header D → Header D
  | .next st => .next (Groceries.prepend_cerr pre st)
  | .awaiting order st => .awaiting order (Groceries.prepend_cerr pre st)

/-! ## Basic facts -/

theorem bind_eq_ok {α β : Type} (x : Except Abort α) (f : α → Except Abort β) (b : β) :
    (x >>= f) = .ok b ↔ ∃ a, x = .ok a ∧ f a = .ok b := by
  cases x with
  | error e => simp [bind, Except.bind]
  | ok a => simp [bind, Except.bind]

theorem ok_bind {α β : Type} (a : α) (f : α → Except Abort β) :
    ((Except.ok a : Except Abort α) >>= f) = f a := rfl

theorem error_bind {α β : Type} (e : Abort) (f : α → Except Abort β) :
    ((Except.error e : Except Abort α) >>= f) = .error e := rfl

theorem pure_eq_ok {α : Type} (a : α) : (pure a : Except Abort α) = .ok a := rfl

/-- The operations of `exactDouble` are those of the field of rationals. -/
theorem exactDouble_ops (a b : Rat) (n : Int) :
    (DoubleModel.add a b : Rat) = a + b ∧ (DoubleModel.mul a b : Rat) = a * b ∧
      (DoubleModel.ofInt n : Rat) = n ∧ (DoubleModel.zero : Rat) = 0 := by
  refine ⟨(Rat.add_def' a b).symm, ?_, Rat.mkRat_one n, ?_⟩
  · show mkRat _ _ = _
    rw [Rat.mul_def, Rat.normalize_eq_mkRat]
  · show mkRat 0 1 = 0
    simp

theorem amount_set_amount {D : Type} (v : D) (p : Payment D) :
    (p.set_amount v).amount = some v := by
  cases p <;> rfl

theorem total_totalled {D : Type} [DoubleModel D] (o o' : Order D)
    (h : o.total = .ok o') : Totalled o' ∧ o'.order_id = o.order_id ∧
      o'.line_items = o.line_items ∧ o'.customer = o.customer ∧ o'.order_date = o.order_date := by
  unfold Order.total at h
  cases hp : o.payment with
  | nullptr => simp [hp] at h
  | wild => simp [hp] at h
  | obj p =>
    simp only [hp] at h
    injection h with h
    subst h
    exact ⟨⟨rfl, _, rfl, amount_set_amount _ _⟩, rfl, rfl, rfl, rfl⟩

theorem finish_order_ok {D : Type} [DoubleModel D] (o : Order D) (st st' : Globals D)
    (h : finish_order o st = .ok st') :
    st'.customers = st.customers ∧ st'.items = st.items ∧
      (st'.orders = st.orders ∨ ∃ o', o.total = .ok o' ∧ st'.orders = st.orders ++ [o']) := by
  unfold finish_order at h
  cases hp : o.payment with
  | nullptr =>
    simp only [hp, pure_eq_ok] at h
    injection h with h
    subst h
    exact ⟨rfl, rfl, Or.inl rfl⟩
  | obj p =>
    simp only [hp] at h
    rw [bind_eq_ok] at h
    obtain ⟨o', h1, h2⟩ := h
    simp only [pure_eq_ok] at h2
    injection h2 with h2
    subst h2
    exact ⟨rfl, rfl, Or.inr ⟨o', h1, rfl⟩⟩
  | wild =>
    simp only [hp] at h
    rw [bind_eq_ok] at h
    obtain ⟨o', h1, h2⟩ := h
    simp only [pure_eq_ok] at h2
    injection h2 with h2
    subst h2
    exact ⟨rfl, rfl, Or.inr ⟨o', h1, rfl⟩⟩

/-- The first half of an iteration changes nothing but `cerr`. -/
theorem read_header_tables {D : Type} [DoubleModel D] (b : Bool) (line : String)
    (st : Globals D) (r : Header D) (h : read_header b line st = .ok r) :
    (∀ st', r = .next st' →
      st'.customers = st.customers ∧ st'.items = st.items ∧ st'.orders = st.orders) ∧
    (∀ o st', r = .awaiting o st' →
      st'.customers = st.customers ∧ st'.items = st.items ∧ st'.orders = st.orders) := by
  unfold read_header at h
  split at h
  · rw [bind_eq_ok] at h
    obtain ⟨cid, -, h⟩ := h
    rw [bind_eq_ok] at h
    obtain ⟨oid, -, h⟩ := h
    split at h
    · simp only [pure_eq_ok] at h
      injection h with h
      subst h
      refine ⟨fun st' e => ?_, fun o st' e => ?_⟩
      · cases e; exact ⟨rfl, rfl, rfl⟩
      · cases e
    · rw [bind_eq_ok] at h
      obtain ⟨⟨lis, errs⟩, -, h⟩ := h
      simp only [pure_eq_ok] at h
      injection h with h
      subst h
      refine ⟨fun st' e => ?_, fun o st' e => ?_⟩
      · cases e
      · cases e; exact ⟨rfl, rfl, rfl⟩
  · simp only [pure_eq_ok] at h
    injection h with h
    subst h
    refine ⟨fun st' e => ?_, fun o st' e => ?_⟩
    · cases e; exact ⟨rfl, rfl, rfl⟩
    · cases e

theorem appends_refl {D : Type} [DoubleModel D] (st : Globals D) : Appends st st :=
  ⟨rfl, rfl, [], by simp, by simp⟩

theorem appends_trans {D : Type} [DoubleModel D] {a b c : Globals D}
    (h1 : Appends a b) (h2 : Appends b c) : Appends a c := by
  obtain ⟨hc1, hi1, n1, ho1, ht1⟩ := h1
  obtain ⟨hc2, hi2, n2, ho2, ht2⟩ := h2
  refine ⟨hc2.trans hc1, hi2.trans hi1, n1 ++ n2, ?_, ?_⟩
  · rw [ho2, ho1, List.append_assoc]
  · intro o ho
    rcases List.mem_append.mp ho with h | h
    · exact ht1 o h
    · exact ht2 o h

theorem appends_of_same {D : Type} [DoubleModel D] {a b : Globals D}
    (h : b.customers = a.customers ∧ b.items = a.items ∧ b.orders = a.orders) : Appends a b :=
  ⟨h.1, h.2.1, [], by simp [h.2.2], by simp⟩

theorem finish_order_appends {D : Type} [DoubleModel D] (o : Order D) (st st' : Globals D)
    (h : finish_order o st = .ok st') : Appends st st' := by
  obtain ⟨hc, hi, ho⟩ := finish_order_ok o st st' h
  rcases ho with ho | ⟨o', ht, ho⟩
  · exact appends_of_same ⟨hc, hi, ho⟩
  · refine ⟨hc, hi, [o'], ho, ?_⟩
    intro x hx
    rw [List.mem_singleton] at hx
    subst hx
    exact (total_totalled o x ht).1

/-- The order that the first half of an iteration leaves has the uninitialized
`payment`. -/
theorem read_header_payment {D : Type} [DoubleModel D] (b : Bool) (line : String)
    (st st' : Globals D) (o : Order D) (h : read_header b line st = .ok (.awaiting o st')) :
    o.payment = uninitialized_payment b := by
  unfold read_header at h
  split at h
  · rw [bind_eq_ok] at h
    obtain ⟨cid, -, h⟩ := h
    rw [bind_eq_ok] at h
    obtain ⟨oid, -, h⟩ := h
    split at h
    · simp only [pure_eq_ok] at h
      injection h with h
      cases h
    · rw [bind_eq_ok] at h
      obtain ⟨⟨lis, errs⟩, -, h⟩ := h
      simp only [pure_eq_ok] at h
      injection h with h
      injection h with h1 h2
      subst h1
      rfl
  · simp only [pure_eq_ok] at h
    injection h with h
    cases h

/-- The payment selection either assigns a new object or leaves the pointer as
it was. -/
theorem select_payment_cases {D : Type} (fields : List String) (ptr pay : PaymentPtr D)
    (h : select_payment fields ptr = .ok pay) : pay = ptr ∨ ∃ p, pay = .obj p := by
  unfold select_payment at h
  split at h
  · rw [bind_eq_ok] at h
    obtain ⟨f0, -, h⟩ := h
    split at h
    · simp only [bind_eq_ok, pure_eq_ok] at h
      obtain ⟨a, -, b, -, h⟩ := h
      injection h with h
      exact Or.inr ⟨_, h.symm⟩
    · split at h
      · simp only [bind_eq_ok, pure_eq_ok] at h
        obtain ⟨a, -, h⟩ := h
        injection h with h
        exact Or.inr ⟨_, h.symm⟩
      · split at h
        · simp only [bind_eq_ok, pure_eq_ok] at h
          obtain ⟨a, -, b, -, h⟩ := h
          injection h with h
          exact Or.inr ⟨_, h.symm⟩
        · simp only [pure_eq_ok] at h
          injection h with h
          exact Or.inl h.symm
  · simp only [pure_eq_ok] at h
    injection h with h
    exact Or.inl h.symm

/-- For an order whose `payment` is null or its own object, lines 280-287 do
what `finish_order` says, whatever the slot holds. -/
theorem finish_payment_not_wild {D : Type} [DoubleModel D] (slot : Option Nat) (o : Order D)
    (st : Globals D) (r : Globals D × Option Nat) (hw : o.payment ≠ .wild)
    (h : finish_payment slot o st = .ok r) : finish_order o st = .ok r.1 := by
  unfold finish_payment at h
  split at h
  · rename_i hp
    exact absurd hp hw
  · rw [bind_eq_ok] at h
    obtain ⟨s1, h1, h⟩ := h
    simp only [pure_eq_ok] at h
    injection h with h
    subst h
    exact h1
  · rw [bind_eq_ok] at h
    obtain ⟨s1, h1, h⟩ := h
    simp only [pure_eq_ok] at h
    injection h with h
    subst h
    exact h1

theorem read_orders_loop_appends_aux {D : Type} [DoubleModel D] (is_null : Nat → Bool)
    (hnull : ∀ k, is_null k = true) (lines : List String) :
    (∀ (slot : Option Nat) (st st' : Globals D),
      read_orders_loop is_null lines slot st = .ok st' → Appends st st') ∧
    (∀ (x : String) (slot : Option Nat) (st st' : Globals D),
      read_orders_loop is_null (x :: lines) slot st = .ok st' → Appends st st') := by
  have hpay : ∀ (b : Bool) (pay : PaymentPtr D), b = true →
      (pay = uninitialized_payment b ∨ ∃ p, pay = .obj p) → pay ≠ .wild := by
    intro b pay hb hp
    subst hb
    rcases hp with hp | ⟨p, hp⟩
    · rw [hp]
      simp [uninitialized_payment]
    · rw [hp]
      simp
  induction lines with
  | nil =>
    refine ⟨fun slot st st' h => ?_, fun x slot st st' h => ?_⟩
    · rw [read_orders_loop, pure_eq_ok] at h
      injection h with h
      subst h
      exact appends_refl _
    · rw [read_orders_loop, bind_eq_ok] at h
      obtain ⟨r, hr, h⟩ := h
      have ht := read_header_tables _ _ _ _ hr
      cases r with
      | next s1 =>
        simp only [pure_eq_ok] at h
        injection h with h
        subst h
        exact appends_of_same (ht.1 _ rfl)
      | awaiting o s1 =>
        simp only [bind_eq_ok, pure_eq_ok] at h
        obtain ⟨r, hf, h⟩ := h
        injection h with h
        subst h
        have hw := hpay _ o.payment (hnull 0) (Or.inl (read_header_payment _ _ _ _ _ hr))
        exact appends_trans (appends_of_same (ht.2 _ _ rfl))
          (finish_order_appends _ _ _ (finish_payment_not_wild _ _ _ _ hw hf))
  | cons pline rest ih =>
    refine ⟨ih.2 pline, fun x slot st st' h => ?_⟩
    rw [read_orders_loop, bind_eq_ok] at h
    obtain ⟨r, hr, h⟩ := h
    have ht := read_header_tables _ _ _ _ hr
    cases r with
    | next s1 =>
      exact appends_trans (appends_of_same (ht.1 _ rfl)) (ih.2 pline _ _ _ h)
    | awaiting o s1 =>
      simp only [bind_eq_ok] at h
      obtain ⟨pay, hsel, r, hf, h⟩ := h
      have hcases := select_payment_cases _ _ _ hsel
      rw [read_header_payment _ _ _ _ _ hr] at hcases
      have hw : ({ o with payment := pay } : Order D).payment ≠ .wild :=
        hpay _ pay (hnull _) hcases
      exact appends_trans (appends_of_same (ht.2 _ _ rfl))
        (appends_trans (finish_order_appends _ _ _ (finish_payment_not_wild _ _ _ _ hw hf))
          (ih.1 _ _ _ h))

/-- On every run in which the uninitialized `payment` member is null whenever
it is read, the orders that `read_orders` appends have `sum` equal to the
accumulated sum of their line items and a payment object that holds the same
amount. -/
theorem totals_agree_when_member_is_null {D : Type} [DoubleModel D] (is_null : Nat → Bool)
    (hnull : ∀ k, is_null k = true) (file : String) (content : Option (List String))
    (st st' : Globals D) (h : read_orders is_null file content st = .ok st') :
    Appends st st' := by
  unfold read_orders at h
  cases content with
  | none =>
    simp only [pure_eq_ok] at h
    injection h with h
    subst h
    exact appends_of_same ⟨rfl, rfl, rfl⟩
  | some lines => exact (read_orders_loop_appends_aux is_null hnull lines).1 none st st' h

/-! ## Lookups -/

theorem find_item_none_iff {D : Type} (items : List (Item D)) (item_id : Int) :
    find_item items item_id = none ↔ known_item items item_id = false := by
  induction items with
  | nil => simp [find_item, known_item]
  | cons itm rest ih =>
    unfold find_item
    by_cases h : itm.item_id = item_id
    · simp [h, known_item]
    · simp only [h, if_false, ih]
      simp [known_item, h]

theorem find_item_some {D : Type} (items : List (Item D)) (item_id : Int) (itm : Item D)
    (h : find_item items item_id = some itm) : itm ∈ items ∧ itm.item_id = item_id := by
  induction items with
  | nil => simp [find_item] at h
  | cons x rest ih =>
    unfold find_item at h
    by_cases hx : x.item_id = item_id
    · simp only [hx, if_true] at h
      injection h with h
      subst h
      exact ⟨List.mem_cons_self _ _, hx⟩
    · simp only [hx, if_false] at h
      exact ⟨List.mem_cons_of_mem _ (ih h).1, (ih h).2⟩

/-- The item search stops at the first record with the id, whatever follows. -/
theorem find_item_first {D : Type} (pre post : List (Item D)) (r : Item D)
    (h : ∀ x ∈ pre, x.item_id ≠ r.item_id) :
    find_item (pre ++ r :: post) r.item_id = some r := by
  induction pre with
  | nil => simp [find_item]
  | cons x rest ih =>
    have hx : x.item_id ≠ r.item_id := h x (List.mem_cons_self _ _)
    have hr : ∀ y ∈ rest, y.item_id ≠ r.item_id := fun y hy => h y (List.mem_cons_of_mem _ hy)
    simp only [List.cons_append, find_item, hx, if_false]
    exact ih hr

theorem find_customer_none_iff (customers : List Customer) (customer_id : Int) :
    find_customer customers customer_id = none ↔ known_customer customers customer_id = false := by
  induction customers with
  | nil => simp [find_customer, known_customer]
  | cons c rest ih =>
    unfold find_customer
    by_cases h : c.customer_id = customer_id
    · simp [h, known_customer]
    · simp only [h, if_false, Option.map_eq_none', ih]
      simp [known_customer, h]

/-- The customer search stops at the first record with the id. -/
theorem find_customer_first (pre post : List Customer) (c : Customer)
    (h : ∀ x ∈ pre, x.customer_id ≠ c.customer_id) :
    find_customer (pre ++ c :: post) c.customer_id = some pre.length := by
  induction pre with
  | nil => simp [find_customer]
  | cons x rest ih =>
    have hx : x.customer_id ≠ c.customer_id := h x (List.mem_cons_self _ _)
    have hr : ∀ y ∈ rest, y.customer_id ≠ c.customer_id :=
      fun y hy => h y (List.mem_cons_of_mem _ hy)
    have e : find_customer (x :: (rest ++ c :: post)) c.customer_id =
        (find_customer (rest ++ c :: post) c.customer_id).map (· + 1) := by
      simp only [find_customer, hx, if_false]
    rw [List.cons_append, e, ih hr]
    rfl

theorem find_customer_some (customers : List Customer) (customer_id : Int) (i : Nat)
    (h : find_customer customers customer_id = some i) :
    ∃ c, customers.get? i = some c ∧ c.customer_id = customer_id := by
  induction customers generalizing i with
  | nil => simp [find_customer] at h
  | cons x rest ih =>
    unfold find_customer at h
    by_cases hx : x.customer_id = customer_id
    · simp only [hx, if_true] at h
      injection h with h
      subst h
      exact ⟨x, rfl, hx⟩
    · simp only [hx, if_false, Option.map_eq_some'] at h
      obtain ⟨j, hj, rfl⟩ := h
      obtain ⟨c, hc, hid⟩ := ih j hj
      exact ⟨c, by simpa using hc, hid⟩

/-! ## Line items -/

theorem parse_token_wf (tok : String) (item_id quantity : Int)
    (h : WellFormedToken tok item_id quantity) : parse_token tok = .ok (item_id, quantity) := by
  obtain ⟨a, b, more, hs, ha, hb⟩ := h
  simp only [parse_token, hs, index, List.get?, ok_bind, ha, hb]
  rfl

theorem line_items_loop_wf {D : Type} (items : List (Item D)) (toks : List String)
    (parsed : List (Int × Int))
    (h : List.Forall₂ (fun t (pr : Int × Int) => WellFormedToken t pr.1 pr.2) toks parsed)
    (line_items : List (LineItem D)) (cerr : List String) :
    line_items_loop items toks line_items cerr =
      .ok (line_items ++ resolved_line_items items parsed, cerr ++ item_complaints items parsed) := by
  induction h generalizing line_items cerr with
  | nil => simp [line_items_loop, resolved_line_items, item_complaints, pure_eq_ok]
  | @cons tok pr toks parsed hw _ ih =>
    rw [line_items_loop, parse_token_wf tok pr.1 pr.2 hw, ok_bind]
    cases hf : find_item items pr.1 with
    | none =>
      simp only [hf]
      rw [ih]
      simp [resolved_line_items, item_complaints, hf, List.filter_cons]
    | some itm =>
      simp only [hf]
      rw [ih]
      simp [resolved_line_items, item_complaints, hf, List.filter_cons]

/-- The resolved line items are the tokens whose id is in the table, in token
order, each with its quantity. -/
theorem resolved_line_items_ids {D : Type} (items : List (Item D)) (parsed : List (Int × Int)) :
    (resolved_line_items items parsed).map (fun li => (li.item.item_id, li.quantity)) =
      parsed.filter (fun pr => known_item items pr.1) := by
  induction parsed with
  | nil => simp [resolved_line_items]
  | cons pr rest ih =>
    unfold resolved_line_items at ih ⊢
    cases hf : find_item items pr.1 with
    | none =>
      have hk := (find_item_none_iff items pr.1).mp hf
      simp [List.filterMap_cons, hf, List.filter_cons, hk, ih]
    | some itm =>
      have hk : known_item items pr.1 = true := by
        cases hk : known_item items pr.1 with
        | true => rfl
        | false => rw [(find_item_none_iff items pr.1).mpr hk] at hf; cases hf
      simp [List.filterMap_cons, hf, List.filter_cons, hk, ih, (find_item_some items pr.1 itm hf).2]

/-- One diagnostic per token whose id is not in the table. -/
theorem item_complaints_eq {D : Type} (items : List (Item D)) (parsed : List (Int × Int)) :
    item_complaints items parsed =
      (parsed.filter (fun pr => !known_item items pr.1)).map
        (fun pr => "Error: Item ID " ++ toString pr.1 ++ " not found.") := by
  unfold item_complaints
  congr 1
  apply List.filter_congr
  intro pr _
  cases hk : known_item items pr.1 with
  | false => simp [(find_item_none_iff items pr.1).mpr hk]
  | true =>
    cases hf : find_item items pr.1 with
    | none => rw [(find_item_none_iff items pr.1).mp hf] at hk; cases hk
    | some itm => simp

theorem resolved_length {D : Type} (items : List (Item D)) (parsed : List (Int × Int)) :
    (resolved_line_items items parsed).length + (item_complaints items parsed).length =
      parsed.length := by
  induction parsed with
  | nil => simp [resolved_line_items, item_complaints]
  | cons pr rest ih =>
    unfold resolved_line_items item_complaints at ih ⊢
    cases hf : find_item items pr.1 with
    | none =>
      simp only [List.filterMap_cons, hf, Option.map_none', List.filter_cons, Option.isNone_none,
        if_true, List.map_cons, List.length_cons]
      omega
    | some itm =>
      simp only [List.filterMap_cons, hf, Option.map_some', List.filter_cons, Option.isNone_some,
        List.length_cons]
      simp only [Bool.false_eq_true, if_false]
      omega

/-! ## One header with its payment line -/

theorem select_payment_credit {D : Type} (a b : String) (ptr : PaymentPtr D) :
    select_payment ["1", a, b] ptr = .ok (.obj (.Credit none a b)) := rfl

theorem select_payment_paypal {D : Type} (a : String) (more : List String)
    (h : more.length ≤ 1) (ptr : PaymentPtr D) :
    select_payment ("2" :: a :: more) ptr = .ok (.obj (.PayPal none a)) := by
  have h3 : ("2" :: a :: more).length ≤ 3 := by simp only [List.length_cons]; omega
  unfold select_payment
  rw [if_pos h3]
  rfl

theorem select_payment_wire {D : Type} (a b : String) (ptr : PaymentPtr D) :
    select_payment ["3", a, b] ptr = .ok (.obj (.WireTransfer none a b)) := rfl

theorem select_payment_valid {D : Type} (pline : String) (ptr : PaymentPtr D)
    (h : ValidPaymentLine pline) :
    ∃ p : Payment D, select_payment (split pline ',') ptr = .ok (.obj p) := by
  rcases h with ⟨a, b, h⟩ | ⟨a, h⟩ | ⟨a, b, h⟩
  · exact ⟨_, by rw [h]; exact select_payment_credit a b ptr⟩
  · exact ⟨_, by rw [h]; exact select_payment_paypal a [] (by simp) ptr⟩
  · exact ⟨_, by rw [h]; exact select_payment_wire a b ptr⟩

theorem wf_header_length (line : String) (cid oid : Int) (date : String)
    (parsed : List (Int × Int)) (hw : WellFormedHeader line cid oid date parsed) :
    (split line ',').length = parsed.length + 3 := by
  obtain ⟨f0, f1, tok, toks, hs, -, -, ht⟩ := hw
  rw [hs, ← ht.length_eq]
  simp

theorem known_customer_find (customers : List Customer) (cid : Int)
    (h : known_customer customers cid = true) :
    ∃ cust, find_customer customers cid = some cust := by
  cases hf : find_customer customers cid with
  | none => rw [(find_customer_none_iff customers cid).mp hf] at h; cases h
  | some cust => exact ⟨cust, rfl⟩

/-- A well-formed header whose customer is found leaves an order that awaits
its payment. -/
theorem read_header_wf {D : Type} [DoubleModel D] (b : Bool) (line : String) (st : Globals D)
    (cid oid : Int) (date : String) (parsed : List (Int × Int)) (cust : Nat)
    (hw : WellFormedHeader line cid oid date parsed)
    (hc : find_customer st.customers cid = some cust) :
    read_header b line st = .ok (.awaiting
      { order_id := oid, order_date := date, sum := DoubleModel.zero, customer := cust,
        line_items := resolved_line_items st.items parsed,
        payment := uninitialized_payment b }
      { st with cerr := st.cerr ++ item_complaints st.items parsed }) := by
  obtain ⟨f0, f1, tok, toks, hs, h0, h1, ht⟩ := hw
  unfold read_header
  simp only [hs, h0, h1, ok_bind, hc, line_items_loop_wf _ _ _ ht, List.nil_append]
  rfl

/-- A well-formed header with a found customer, followed by a line from which
a payment is selected: the order is appended and the loop goes on after the
two lines. -/
theorem read_orders_loop_pair {D : Type} [DoubleModel D] (is_null : Nat → Bool)
    (line pline : String) (rest : List String) (st : Globals D)
    (cid oid : Int) (date : String) (parsed : List (Int × Int)) (cust : Nat) (p : Payment D)
    (hw : WellFormedHeader line cid oid date parsed)
    (hc : find_customer st.customers cid = some cust)
    (hp : select_payment (split pline ',')
      (uninitialized_payment (is_null (rest.length + 1))) = .ok (.obj p))
    (slot : Option Nat) :
    read_orders_loop is_null (line :: pline :: rest) slot st =
      read_orders_loop is_null rest (some st.orders.length)
        { st with
          orders := st.orders ++
            [assembled_order oid date cust (resolved_line_items st.items parsed) p],
          cerr := st.cerr ++ item_complaints st.items parsed } := by
  rw [read_orders_loop, read_header_wf _ line st cid oid date parsed cust hw hc, ok_bind]
  simp only [hp, ok_bind]
  rfl

/-! ## Order totals (C1) and the end-to-end example (C2) -/

/-- C1: on the tables of the example, the orders file `1,100,2024-01-01,20-1`,
`2,jane@pay`, `1,101,2024-01-02,10-1`, `9,zzz`. The payment line of order 101
selects nothing, so line 281 tests the uninitialized `payment` member. When
that is not null it still holds the pointer assigned for order 100: the test
passes and `total()` stores the sum of order 101 in the payment object of
order 100. The run returns with two orders, order 100 having sum 2 and payment
amount 1/2, and the test of line 127 of `print_order` fires for it. When the
member happens to be null, order 101 is reported and skipped and order 100
keeps an amount equal to its sum. -/
theorem C1_stale_payment_pointer_breaks_amount :
    read_orders (fun _ => false) "orders.txt"
        (some ["1,100,2024-01-01,20-1", "2,jane@pay", "1,101,2024-01-02,10-1", "9,zzz"])
        example_tables =
      .ok { example_tables with
        orders :=
          [{ order_id := 100, order_date := "2024-01-01", sum := mkRat 2 1, customer := 0,
             line_items := [{ item := bread, quantity := 1 }],
             payment := .obj (.PayPal (some (mkRat 1 2)) "jane@pay") },
           { order_id := 101, order_date := "2024-01-02", sum := mkRat 1 2, customer := 0,
             line_items := [{ item := apple, quantity := 1 }],
             payment := .obj (.PayPal (some (mkRat 1 2)) "jane@pay") }] } ∧
    (mkRat 2 1 : Rat) ≠ mkRat 1 2 ∧
    Except.map (fun r => r.2)
        (({ order_id := 100, order_date := "2024-01-01", sum := mkRat 2 1, customer := 0,
            line_items := [{ item := bread, quantity := 1 }],
            payment := .obj (.PayPal (some (mkRat 1 2)) "jane@pay") } : Order Rat).print_order
          example_tables.customers) =
      .ok (some (mkRat 1 2, mkRat 2 1, 100)) ∧
    read_orders (fun _ => true) "orders.txt"
        (some ["1,100,2024-01-01,20-1", "2,jane@pay", "1,101,2024-01-02,10-1", "9,zzz"])
        example_tables =
      .ok { example_tables with
        orders :=
          [{ order_id := 100, order_date := "2024-01-01", sum := mkRat 2 1, customer := 0,
             line_items := [{ item := bread, quantity := 1 }],
             payment := .obj (.PayPal (some (mkRat 2 1)) "jane@pay") }],
        cerr := ["Error: Payment not initialized for order ID 101"] } := by
  decide

/-- C2: the end-to-end example. Loading the one-line customers file, the
two-line items file and the two-line orders file of the example, from empty
tables, returns with nothing reported and exactly one order: id 100, date
2024-01-01, the customer at position 0 of the table (Jane Doe, id 1), line
items (Apple, 3) and (Bread, 1) in that order, sum 7/2 = 3.50, and a Credit
payment with card number 4567, expiration 12/25 and amount 7/2 = 3.50. -/
theorem C2_end_to_end_example (is_null : Nat → Bool) :
    load_all is_null (some example_customers) (some example_items) (some example_orders) =
      .ok { customers := [jane], items := [apple, bread],
            orders := [{ order_id := 100, order_date := "2024-01-01", sum := mkRat 7 2,
                         customer := 0,
                         line_items := [{ item := apple, quantity := 3 },
                                        { item := bread, quantity := 1 }],
                         payment := .obj (.Credit (some (mkRat 7 2)) "4567" "12/25") }],
            cerr := [] } ∧
    jane.customer_id = 1 ∧ apple.item_id = 10 ∧ bread.item_id = 20 ∧
    (mkRat 7 2 : Rat) = 3.5 ∧ apple.price = 0.5 ∧ bread.price = 2 := by
  refine ⟨rfl, rfl, rfl, rfl, ?_, ?_, ?_⟩
  · rw [Rat.mkRat_eq_div]; norm_num
  · show (mkRat 1 2 : Rat) = 0.5
    rw [Rat.mkRat_eq_div]; norm_num
  · show (mkRat 2 1 : Rat) = 2
    rw [Rat.mkRat_eq_div]; norm_num

/-! ## Unknown customer (C3) -/

/-- A header with more than 3 fields whose customer id matches no customer
ends its iteration at the `continue` of line 231 with one diagnostic; the item
tokens are not looked at and no line is read for the payment. -/
theorem read_header_unknown_customer {D : Type} [DoubleModel D] (b : Bool) (line : String)
    (st : Globals D) (f0 f1 f2 tok : String) (toks : List String) (cid oid : Int)
    (hs : split line ',' = f0 :: f1 :: f2 :: tok :: toks)
    (h0 : stoi f0 = .ok cid) (h1 : stoi f1 = .ok oid)
    (hc : known_customer st.customers cid = false) :
    read_header b line st = .ok (.next { st with cerr := st.cerr ++
      ["Error: Customer ID " ++ toString cid ++ " not found."] }) := by
  unfold read_header
  simp only [hs, h0, h1, ok_bind, (find_customer_none_iff _ _).mpr hc]
  rfl

/-- A line with at most 3 fields in header position is reported as being of
unexpected format. -/
theorem read_header_short {D : Type} [DoubleModel D] (b : Bool) (line : String)
    (st : Globals D) (h : (split line ',').length ≤ 3) :
    read_header b line st = .ok (.next { st with cerr := st.cerr ++
      ["Error: Unexpected format in line: " ++ line] }) := by
  unfold read_header
  split
  · rename_i hs
    rw [hs] at h
    simp only [List.length_cons] at h
    omega
  · rfl

/-- An iteration that ends in its first half is followed by an iteration on
the next line. -/
theorem read_orders_loop_next {D : Type} [DoubleModel D] (is_null : Nat → Bool)
    (line : String) (rest : List String) (st st1 : Globals D)
    (h : read_header (is_null rest.length) line st = .ok (.next st1)) (slot : Option Nat) :
    read_orders_loop is_null (line :: rest) slot st =
      read_orders_loop is_null rest slot st1 := by
  cases rest with
  | nil =>
    have e : read_orders_loop is_null [line] slot st = .ok st1 := by
      rw [read_orders_loop, show is_null 0 = is_null ([] : List String).length from rfl, h]
      rfl
    rw [e]
    rfl
  | cons x rest =>
    have e : read_orders_loop is_null (line :: x :: rest) slot st =
        read_orders_loop is_null (x :: rest) slot st1 := by
      conv_lhs => rw [read_orders_loop]
      rw [show is_null (rest.length + 1) = is_null (x :: rest).length from rfl, h]
      rfl
    exact e

/-- What the code does with an unknown-customer header followed by its payment
line (at most 3 fields): no order is added and two errors are reported, the
second one for the payment line, which is read as a header. -/
theorem unknown_customer_pair {D : Type} [DoubleModel D] (is_null : Nat → Bool)
    (line pline : String) (rest : List String) (st : Globals D)
    (f0 f1 f2 tok : String) (toks : List String) (cid oid : Int)
    (hs : split line ',' = f0 :: f1 :: f2 :: tok :: toks)
    (h0 : stoi f0 = .ok cid) (h1 : stoi f1 = .ok oid)
    (hc : known_customer st.customers cid = false)
    (hp : (split pline ',').length ≤ 3) (slot : Option Nat) :
    read_orders_loop is_null (line :: pline :: rest) slot st =
      read_orders_loop is_null rest slot { st with cerr := st.cerr ++
        ["Error: Customer ID " ++ toString cid ++ " not found.",
         "Error: Unexpected format in line: " ++ pline] } := by
  rw [read_orders_loop_next is_null line (pline :: rest) st _
    (read_header_unknown_customer _ line st f0 f1 f2 tok toks cid oid hs h0 h1 hc)]
  rw [read_orders_loop_next is_null pline rest _ _ (read_header_short _ pline _ hp)]
  simp

/-- C3: on the tables of the example, the orders file made of the header
`7,100,2024-01-01,10-3` (customer 7 is not loaded) and its payment line
`1,4567,12/25` adds no order and reports two errors, not one: the second is
for the payment line, which the `continue` of line 231 has left unread and
which is then read as a header. -/
theorem C3_unknown_customer_reports_two_errors (is_null : Nat → Bool) :
    read_orders is_null "orders.txt" (some ["7,100,2024-01-01,10-3", "1,4567,12/25"])
        example_tables =
      .ok { example_tables with
        cerr := ["Error: Customer ID 7 not found.",
                 "Error: Unexpected format in line: 1,4567,12/25"] } := by
  rfl

/-! ## Unknown items (C4) and the payment variants (C5) -/

/-- C4: a header line with a resolvable customer followed by a valid payment
line adds the order; its line items are exactly the tokens whose item id is in
the item table, in token order and with the token's quantity, each holding a
record of the table; one error is reported per token whose id is not in the
table; the line items and the reported errors together are as many as the
tokens, so one unknown id gives one line item fewer than tokens and one
error. -/
theorem C4_unknown_item_tokens_are_omitted {D : Type} [DoubleModel D] (is_null : Nat → Bool)
    (file line pline : String) (st : Globals D) (cid oid : Int) (date : String)
    (parsed : List (Int × Int))
    (hw : WellFormedHeader line cid oid date parsed)
    (hc : known_customer st.customers cid = true)
    (hp : ValidPaymentLine pline) :
    ∃ o, read_orders is_null file (some [line, pline]) st =
        .ok { st with
          orders := st.orders ++ [o],
          cerr := st.cerr ++ (parsed.filter (fun pr => !known_item st.items pr.1)).map
            (fun pr => "Error: Item ID " ++ toString pr.1 ++ " not found.") } ∧
      o.order_id = oid ∧
      o.line_items.map (fun li => (li.item.item_id, li.quantity)) =
        parsed.filter (fun pr => known_item st.items pr.1) ∧
      (∀ li ∈ o.line_items, li.item ∈ st.items) ∧
      o.line_items.length + (parsed.filter (fun pr => !known_item st.items pr.1)).length + 3 =
        (split line ',').length ∧
      ((parsed.filter (fun pr => !known_item st.items pr.1)).length = 1 →
        o.line_items.length + 1 + 3 = (split line ',').length) := by
  obtain ⟨cust, hcust⟩ := known_customer_find st.customers cid hc
  obtain ⟨p, hsel⟩ := select_payment_valid (D := D) pline
    (uninitialized_payment (is_null (([] : List String).length + 1))) hp
  have hrun := read_orders_loop_pair is_null line pline [] st cid oid date parsed cust p hw hcust hsel
  have hlen := resolved_length st.items parsed
  rw [item_complaints_eq, List.length_map] at hlen
  refine ⟨assembled_order oid date cust (resolved_line_items st.items parsed) p, ?_, rfl,
    resolved_line_items_ids st.items parsed, ?_, ?_, ?_⟩
  · unfold read_orders
    simp only []
    rw [hrun, item_complaints_eq]
    rfl
  · intro li hli
    simp only [assembled_order, resolved_line_items, List.mem_filterMap,
      Option.map_eq_some'] at hli
    obtain ⟨pr, -, itm, hf, rfl⟩ := hli
    exact (find_item_some st.items pr.1 itm hf).1
  · rw [wf_header_length line cid oid date parsed hw]
    show (resolved_line_items st.items parsed).length + _ + 3 = _
    omega
  · intro h1
    rw [wf_header_length line cid oid date parsed hw]
    show (resolved_line_items st.items parsed).length + 1 + 3 = _
    omega

/-- C4 at the header `1,100,2024-01-01,10-3,99-1` (no item has id 99) with
payment line `2,jane@pay`, on the tables of the example. -/
theorem C4_unknown_item_tokens_are_omitted_witness :
    ∃ o : Order Rat, read_orders (fun _ => false) "orders.txt"
        (some ["1,100,2024-01-01,10-3,99-1", "2,jane@pay"]) example_tables =
        .ok { example_tables with
          orders := example_tables.orders ++ [o],
          cerr := example_tables.cerr ++
            ([(10, 3), (99, 1)].filter (fun pr => !known_item example_tables.items pr.1)).map
              (fun pr => "Error: Item ID " ++ toString pr.1 ++ " not found.") } ∧
      o.order_id = 100 ∧
      o.line_items.map (fun li => (li.item.item_id, li.quantity)) =
        [(10, 3), (99, 1)].filter (fun pr => known_item example_tables.items pr.1) ∧
      (∀ li ∈ o.line_items, li.item ∈ example_tables.items) ∧
      o.line_items.length +
          ([(10, 3), (99, 1)].filter (fun pr => !known_item example_tables.items pr.1)).length + 3 =
        (split "1,100,2024-01-01,10-3,99-1" ',').length ∧
      (([(10, 3), (99, 1)].filter (fun pr => !known_item example_tables.items pr.1)).length = 1 →
        o.line_items.length + 1 + 3 = (split "1,100,2024-01-01,10-3,99-1" ',').length) :=
  C4_unknown_item_tokens_are_omitted (fun _ => false) "orders.txt" "1,100,2024-01-01,10-3,99-1"
    "2,jane@pay" example_tables 1 100 "2024-01-01" [(10, 3), (99, 1)]
    ⟨"1", "100", "10-3", ["99-1"], by decide, by decide, by decide,
      List.Forall₂.cons ⟨"10", "3", [], by decide, by decide, by decide⟩
        (List.Forall₂.cons ⟨"99", "1", [], by decide, by decide, by decide⟩ List.Forall₂.nil)⟩
    (by decide)
    (Or.inr (Or.inl ⟨"jane@pay", by decide⟩))

/-- A payment line with more than 3 fields, or whose first field is none of
`1`, `2`, `3`, assigns nothing to `order.payment`. -/
theorem select_payment_unchanged {D : Type} (fields : List String) (ptr : PaymentPtr D)
    (h : 3 < fields.length ∨
      ∃ f0 more, fields = f0 :: more ∧ f0 ≠ "1" ∧ f0 ≠ "2" ∧ f0 ≠ "3") :
    select_payment fields ptr = .ok ptr := by
  unfold select_payment
  by_cases h3 : fields.length ≤ 3
  · rcases h with h | ⟨f0, more, rfl, h1, h2, h3'⟩
    · omega
    · rw [if_pos h3]
      simp only [index, List.get?, ok_bind, h1, h2, h3', if_false]
      rfl
  · rw [if_neg h3]
    rfl

/-- Header with a found customer, payment line that selects nothing, and an
uninitialized `payment` member that happens to be null: the null test of line
281 reports the order and skips it. -/
theorem no_payment_null_member {D : Type} [DoubleModel D] (is_null : Nat → Bool)
    (line pline : String) (rest : List String) (st : Globals D)
    (cid oid : Int) (date : String) (parsed : List (Int × Int)) (cust : Nat)
    (hw : WellFormedHeader line cid oid date parsed)
    (hc : find_customer st.customers cid = some cust)
    (hn : is_null (rest.length + 1) = true)
    (hp : select_payment (split pline ',') (PaymentPtr.nullptr : PaymentPtr D) = .ok .nullptr)
    (slot : Option Nat) :
    read_orders_loop is_null (line :: pline :: rest) slot st =
      read_orders_loop is_null rest slot
        { st with cerr := st.cerr ++ item_complaints st.items parsed ++
            ["Error: Payment not initialized for order ID " ++ toString oid] } := by
  rw [read_orders_loop, read_header_wf _ line st cid oid date parsed cust hw hc, ok_bind]
  simp only [hn, uninitialized_payment, if_true, hp, ok_bind]
  cases slot <;> rfl

/-- The same with an uninitialized `payment` member that is not null, before
any iteration of the call has assigned a payment: the test of line 281 passes
and `total()` stores through a pointer to no object. -/
theorem no_payment_wild_member {D : Type} [DoubleModel D] (is_null : Nat → Bool)
    (line pline : String) (rest : List String) (st : Globals D)
    (cid oid : Int) (date : String) (parsed : List (Int × Int)) (cust : Nat)
    (hw : WellFormedHeader line cid oid date parsed)
    (hc : find_customer st.customers cid = some cust)
    (hn : is_null (rest.length + 1) = false)
    (hp : select_payment (split pline ',') (PaymentPtr.wild : PaymentPtr D) = .ok .wild) :
    read_orders_loop is_null (line :: pline :: rest) none st =
      .error .undefined_behaviour := by
  rw [read_orders_loop, read_header_wf _ line st cid oid date parsed cust hw hc, ok_bind]
  simp only [hn, uninitialized_payment, Bool.false_eq_true, if_false, hp, ok_bind]
  rfl

/-- The same after an iteration of the call has assigned a payment, the one of
the order at position `n`: the test of line 281 passes, `total()` stores the
sum in that order's payment object and the order is pushed. -/
theorem no_payment_stale_member {D : Type} [DoubleModel D] (is_null : Nat → Bool)
    (line pline : String) (rest : List String) (st : Globals D)
    (cid oid : Int) (date : String) (parsed : List (Int × Int)) (cust : Nat)
    (hw : WellFormedHeader line cid oid date parsed)
    (hc : find_customer st.customers cid = some cust)
    (hn : is_null (rest.length + 1) = false)
    (hp : select_payment (split pline ',') (PaymentPtr.wild : PaymentPtr D) = .ok .wild)
    (n : Nat) :
    read_orders_loop is_null (line :: pline :: rest) (some n) st =
      (finish_order_stale n
        { order_id := oid, order_date := date, sum := DoubleModel.zero, customer := cust,
          line_items := resolved_line_items st.items parsed, payment := .wild }
        { st with cerr := st.cerr ++ item_complaints st.items parsed }) >>=
      fun st' => read_orders_loop is_null rest (some n) st' := by
  rw [read_orders_loop, read_header_wf _ line st cid oid date parsed cust hw hc, ok_bind]
  simp only [hn, uninitialized_payment, Bool.false_eq_true, if_false, hp, ok_bind]
  cases hf : finish_order_stale n
      { order_id := oid, order_date := date, sum := DoubleModel.zero, customer := cust,
        line_items := resolved_line_items st.items parsed, payment := .wild }
      { st with cerr := st.cerr ++ item_complaints st.items parsed } with
  | error e => simp [finish_payment, hf, bind, Except.bind]
  | ok s1 => simp [finish_payment, hf, bind, Except.bind, pure, Except.pure]

/-- C6: on the tables of the example, with an uninitialized `payment` member
that does not happen to be null, the header `1,100,2024-01-01,10-3` followed by
a payment line with selector `4`, by a payment line with 4 fields, or by no
line at all, is not reported and skipped: the null test of line 281 passes and
`total()` stores the sum through the uninitialized pointer. -/
theorem C6_order_without_payment_is_not_skipped :
    read_orders (fun _ => false) "orders.txt" (some ["1,100,2024-01-01,10-3", "4,x"])
        example_tables = .error .undefined_behaviour ∧
    read_orders (fun _ => false) "orders.txt"
        (some ["1,100,2024-01-01,10-3", "1,4567,12/25,extra"])
        example_tables = .error .undefined_behaviour ∧
    read_orders (fun _ => false) "orders.txt" (some ["1,100,2024-01-01,10-3"])
        example_tables = .error .undefined_behaviour ∧
    read_orders (fun _ => true) "orders.txt" (some ["1,100,2024-01-01,10-3", "4,x"])
        example_tables =
      .ok { example_tables with cerr := ["Error: Payment not initialized for order ID 100"] } := by
  decide

/-! ## Unparsable numbers (C7) -/

/-- An exception in the first half of an iteration ends the loop. -/
theorem read_orders_loop_header_error {D : Type} [DoubleModel D] (is_null : Nat → Bool)
    (line : String) (rest : List String) (st : Globals D) (e : Abort)
    (h : ∀ b, read_header b line st = .error e) (slot : Option Nat) :
    read_orders_loop is_null (line :: rest) slot st = .error e := by
  cases rest with
  | nil => rw [read_orders_loop, h, error_bind]
  | cons x rest => rw [read_orders_loop, h, error_bind]

/-- A token whose item id `stoi` rejects. -/
theorem parse_token_bad_id (tok a : String) (more : List String) (e : Abort)
    (hs : split tok '-' = a :: more) (ha : stoi a = .error e) :
    parse_token tok = .error e := by
  simp only [parse_token, hs, index, List.get?, ok_bind, ha, error_bind]

/-- A token whose quantity `stoi` rejects. -/
theorem parse_token_bad_quantity (tok a b : String) (more : List String) (e : Abort)
    (item_id : Int) (hs : split tok '-' = a :: b :: more) (ha : stoi a = .ok item_id)
    (hb : stoi b = .error e) :
    parse_token tok = .error e := by
  simp only [parse_token, hs, index, List.get?, ok_bind, ha, hb, error_bind]

/-- The line-item loop stops at the first token that throws. -/
theorem line_items_loop_error {D : Type} (items : List (Item D)) (pre : List String)
    (parsed : List (Int × Int)) (bad : String) (post : List String) (e : Abort)
    (hpre : List.Forall₂ (fun t (pr : Int × Int) => WellFormedToken t pr.1 pr.2) pre parsed)
    (hbad : parse_token bad = .error e) (line_items : List (LineItem D)) (cerr : List String) :
    line_items_loop items (pre ++ bad :: post) line_items cerr = .error e := by
  induction hpre generalizing line_items cerr with
  | nil => rw [List.nil_append, line_items_loop, hbad, error_bind]
  | @cons tok pr toks parsed hw _ ih =>
    rw [List.cons_append, line_items_loop, parse_token_wf tok pr.1 pr.2 hw, ok_bind]
    cases hf : find_item items pr.1 with
    | none => simp only [hf]; exact ih _ _
    | some itm => simp only [hf]; exact ih _ _

/-- C7, as stated, fails: on a customers file whose first line has 8 fields
and the id `x1`, followed by a well-formed line, `read_customers` does not
return: `stoi` throws `invalid_argument`, nothing catches it, and the second
line is never read. -/
theorem C7_unparsable_id_is_not_skipped :
    read_customers "customers.txt"
        (some ["x1,Jane Doe,1 Main St,Springfield,IL,62704,555-1234,jane@x.com",
               "2,John Roe,2 Main St,Springfield,IL,62704,555-9876,john@x.com"])
        (Globals.init : Globals Rat) = .error .invalid_argument ∧
    ¬ ∃ st' : Globals Rat, read_customers "customers.txt"
        (some ["x1,Jane Doe,1 Main St,Springfield,IL,62704,555-1234,jane@x.com",
               "2,John Roe,2 Main St,Springfield,IL,62704,555-9876,john@x.com"])
        Globals.init = .ok st' := by
  have h : read_customers "customers.txt"
        (some ["x1,Jane Doe,1 Main St,Springfield,IL,62704,555-1234,jane@x.com",
               "2,John Roe,2 Main St,Springfield,IL,62704,555-9876,john@x.com"])
        (Globals.init : Globals Rat) = .error .invalid_argument := by decide
  refine ⟨h, ?_⟩
  rintro ⟨st', hst⟩
  rw [h] at hst
  cases hst

/-- C7, amended: a record with the right field count whose number `stoi` or
`stod` rejects with the exception `e` is not skipped and the loader does not
go on: the run ends at that record with `e`, whatever lines `rest` follow and
whatever the state and the slot are when the loop reaches it. This holds for a
customer line with 8 fields (id), an item line with 3 fields (id, or price
after an accepted id), an order header with more than 3 fields (customer id, or
order id after an accepted customer id) and, when the header's customer is
found, for the first token whose item id, or quantity after an accepted item
id, is rejected after tokens that are well formed. -/
theorem C7_unparsable_number_stops_the_loader {D : Type} [DoubleModel D]
    (is_null : Nat → Bool) (rest : List String) (slot : Option Nat) (st : Globals D)
    (e : Abort) :
    (∀ line f0 f1 f2 f3 f4 f5 f6 f7, split line ',' = [f0, f1, f2, f3, f4, f5, f6, f7] →
      stoi f0 = .error e → read_customers_loop (line :: rest) st = .error e) ∧
    (∀ line f0 f1 f2, split line ',' = [f0, f1, f2] →
      (stoi f0 = .error e ∨
        ((∃ item_id, stoi f0 = .ok item_id) ∧ (DoubleModel.stod f2 : Except Abort D) = .error e)) →
      read_items_loop (line :: rest) st = .error e) ∧
    (∀ line f0 f1 f2 tok toks, split line ',' = f0 :: f1 :: f2 :: tok :: toks →
      (stoi f0 = .error e ∨ ((∃ customer_id, stoi f0 = .ok customer_id) ∧ stoi f1 = .error e)) →
      read_orders_loop is_null (line :: rest) slot st = .error e) ∧
    (∀ line f0 f1 f2 tok toks customer_id order_id pre parsed bad post,
      split line ',' = f0 :: f1 :: f2 :: tok :: toks →
      stoi f0 = .ok customer_id → stoi f1 = .ok order_id →
      known_customer st.customers customer_id = true →
      tok :: toks = pre ++ bad :: post →
      List.Forall₂ (fun t (pr : Int × Int) => WellFormedToken t pr.1 pr.2) pre parsed →
      ((∃ a more, split bad '-' = a :: more ∧ stoi a = .error e) ∨
        (∃ a b more item_id, split bad '-' = a :: b :: more ∧ stoi a = .ok item_id ∧
          stoi b = .error e)) →
      read_orders_loop is_null (line :: rest) slot st = .error e) := by
  refine ⟨?_, ?_, ?_, ?_⟩
  · intro line f0 f1 f2 f3 f4 f5 f6 f7 hs h0
    rw [read_customers_loop]
    simp only [read_customers_line, hs, h0, error_bind]
  · intro line f0 f1 f2 hs h
    rw [read_items_loop]
    rcases h with h0 | ⟨⟨item_id, h0⟩, h2⟩
    · simp only [read_items_line, hs, h0, error_bind]
    · simp only [read_items_line, hs, h0, ok_bind, h2, error_bind]
  · intro line f0 f1 f2 tok toks hs h
    apply read_orders_loop_header_error
    intro b
    rcases h with h0 | ⟨⟨cid, h0⟩, h1⟩
    · simp only [read_header, hs, h0, error_bind]
    · simp only [read_header, hs, h0, ok_bind, h1, error_bind]
  · intro line f0 f1 f2 tok toks cid oid pre parsed bad post hs h0 h1 hc htoks hpre hbad
    obtain ⟨cust, hcust⟩ := known_customer_find st.customers cid hc
    have hpt : parse_token bad = .error e := by
      rcases hbad with ⟨a, more, hsb, ha⟩ | ⟨a, b, more, item_id, hsb, ha, hb⟩
      · exact parse_token_bad_id bad a more e hsb ha
      · exact parse_token_bad_quantity bad a b more e item_id hsb ha hb
    apply read_orders_loop_header_error
    intro bnull
    simp only [read_header, hs, h0, h1, ok_bind, hcust]
    rw [htoks, line_items_loop_error st.items pre parsed bad post e hpre hpt, error_bind]

/-- C7 amended, at a customer line with id `x1`, an item line with price
`cheap`, an order header with customer id `one`, an order header whose second
token has quantity `three`, and an order header whose only token `apple` has
no number and no hyphen; a well-formed line follows each. -/
theorem C7_unparsable_number_stops_the_loader_witness :
    read_customers_loop
        ["x1,Jane Doe,1 Main St,Springfield,IL,62704,555-1234,jane@x.com",
         "2,John Roe,2 Main St,Springfield,IL,62704,555-9876,john@x.com"]
        example_tables = .error .invalid_argument ∧
    read_items_loop ["10,Apple,cheap", "20,Bread,2.00"] example_tables =
      .error .invalid_argument ∧
    read_orders_loop (fun _ => true) ["one,100,2024-01-01,10-3", "1,4567,12/25"] none
        example_tables = .error .invalid_argument ∧
    read_orders_loop (fun _ => true) ["1,100,2024-01-01,10-3,20-three", "1,4567,12/25"] none
        example_tables = .error .invalid_argument ∧
    read_orders_loop (fun _ => true) ["1,100,2024-01-01,apple", "1,4567,12/25"] none
        example_tables = .error .invalid_argument :=
  have h := C7_unparsable_number_stops_the_loader (D := Rat) (fun _ => true)
  ⟨(h ["2,John Roe,2 Main St,Springfield,IL,62704,555-9876,john@x.com"] none example_tables
      .invalid_argument).1 _ "x1" "Jane Doe" "1 Main St" "Springfield" "IL" "62704" "555-1234"
      "jane@x.com" (by decide) (by decide),
   (h ["20,Bread,2.00"] none example_tables .invalid_argument).2.1 _ "10" "Apple" "cheap"
      (by decide) (Or.inr ⟨⟨10, by decide⟩, by decide⟩),
   (h ["1,4567,12/25"] none example_tables .invalid_argument).2.2.1 _ "one" "100" "2024-01-01"
      "10-3" [] (by decide) (Or.inl (by decide)),
   (h ["1,4567,12/25"] none example_tables .invalid_argument).2.2.2 _ "1" "100" "2024-01-01"
      "10-3" ["20-three"] 1 100 ["10-3"] [(10, 3)] "20-three" []
      (by decide) (by decide) (by decide) (by decide) (by decide)
      (List.Forall₂.cons ⟨"10", "3", [], by decide, by decide, by decide⟩ List.Forall₂.nil)
      (Or.inr ⟨"20", "three", [], 20, by decide, by decide, by decide⟩),
   (h ["1,4567,12/25"] none example_tables .invalid_argument).2.2.2 _ "1" "100" "2024-01-01"
      "apple" [] 1 100 [] [] "apple" []
      (by decide) (by decide) (by decide) (by decide) (by decide)
      List.Forall₂.nil
      (Or.inl ⟨"apple", [], by decide, by decide⟩)⟩

/-! ## Customer lines (C8) -/

theorem length_eq_eight (l : List String) (h : l.length = 8) :
    ∃ a0 a1 a2 a3 a4 a5 a6 a7, l = [a0, a1, a2, a3, a4, a5, a6, a7] := by
  match l, h with
  | [a0, a1, a2, a3, a4, a5, a6, a7], _ => exact ⟨a0, a1, a2, a3, a4, a5, a6, a7, rfl⟩

theorem read_customers_line_eight {D : Type} (line : String) (st : Globals D)
    (h8 : (split line ',').length = 8)
    (hid : ∃ id, stoi ((split line ',').getD 0 "") = .ok id) :
    read_customers_line line st =
      .ok { st with customers := st.customers ++ [customer_of_line line] } := by
  obtain ⟨a0, a1, a2, a3, a4, a5, a6, a7, hs⟩ := length_eq_eight _ h8
  obtain ⟨id, hid⟩ := hid
  rw [hs] at hid
  simp only [List.getD_cons_zero] at hid
  simp only [read_customers_line, customer_of_line, hs, hid, ok_bind, List.getD_cons_zero,
    List.getD_cons_succ]
  rfl

theorem read_customers_line_other {D : Type} (line : String) (st : Globals D)
    (h8 : (split line ',').length ≠ 8) :
    read_customers_line line st =
      .ok { st with cerr := st.cerr ++ ["Error: Not enough fields in line. " ++ line] } := by
  unfold read_customers_line
  split
  · rename_i hs
    rw [hs] at h8
    exact absurd rfl h8
  · rfl

/-- C8: for every customers file in which `stoi` accepts field 0 of each
8-field line, `read_customers` appends one customer for each line that splits
into exactly 8 fields, in file order and with id, name, street, city, state,
zip, phone, email taken from fields 0..7, and reports one error for each line
with any other number of fields, adding no customer for it. -/
theorem C8_customer_lines_by_field_count {D : Type} (file : String) (lines : List String)
    (st : Globals D)
    (hid : ∀ line ∈ lines, (split line ',').length = 8 →
      ∃ id, stoi ((split line ',').getD 0 "") = .ok id) :
    read_customers file (some lines) st =
      .ok { st with
        customers := st.customers ++
          (lines.filter (fun l => decide ((split l ',').length = 8))).map customer_of_line,
        cerr := st.cerr ++
          (lines.filter (fun l => decide ((split l ',').length ≠ 8))).map
            (fun l => "Error: Not enough fields in line. " ++ l) } := by
  unfold read_customers
  simp only []
  induction lines generalizing st with
  | nil => simp [read_customers_loop, pure_eq_ok]
  | cons line rest ih =>
    have hrest : ∀ l ∈ rest, (split l ',').length = 8 →
        ∃ id, stoi ((split l ',').getD 0 "") = .ok id :=
      fun l hl => hid l (List.mem_cons_of_mem _ hl)
    rw [read_customers_loop]
    by_cases h8 : (split line ',').length = 8
    · rw [read_customers_line_eight line st h8 (hid line (List.mem_cons_self _ _) h8), ok_bind,
        ih _ hrest]
      simp [List.filter_cons, h8]
    · rw [read_customers_line_other line st h8, ok_bind, ih _ hrest]
      simp [List.filter_cons, h8]

/-- C8 at a file with a 7-field line, the line of the example and a 9-field
line: one customer, two errors. -/
theorem C8_customer_lines_by_field_count_witness :
    read_customers "customers.txt"
        (some ["2,John Roe,2 Main St,Springfield,IL,62704,555-9876",
               "1,Jane Doe,1 Main St,Springfield,IL,62704,555-1234,jane@x.com",
               "3,Ann Poe,3 Main St,Springfield,IL,62704,555-0000,ann@x.com,extra"])
        (Globals.init : Globals Rat) =
      .ok { (Globals.init : Globals Rat) with
        customers := (Globals.init : Globals Rat).customers ++
          (["2,John Roe,2 Main St,Springfield,IL,62704,555-9876",
            "1,Jane Doe,1 Main St,Springfield,IL,62704,555-1234,jane@x.com",
            "3,Ann Poe,3 Main St,Springfield,IL,62704,555-0000,ann@x.com,extra"].filter
              (fun l => decide ((split l ',').length = 8))).map customer_of_line,
        cerr := (Globals.init : Globals Rat).cerr ++
          (["2,John Roe,2 Main St,Springfield,IL,62704,555-9876",
            "1,Jane Doe,1 Main St,Springfield,IL,62704,555-1234,jane@x.com",
            "3,Ann Poe,3 Main St,Springfield,IL,62704,555-0000,ann@x.com,extra"].filter
              (fun l => decide ((split l ',').length ≠ 8))).map
            (fun l => "Error: Not enough fields in line. " ++ l) } ∧
    (["2,John Roe,2 Main St,Springfield,IL,62704,555-9876",
      "1,Jane Doe,1 Main St,Springfield,IL,62704,555-1234,jane@x.com",
      "3,Ann Poe,3 Main St,Springfield,IL,62704,555-0000,ann@x.com,extra"].filter
        (fun l => decide ((split l ',').length = 8))).map customer_of_line = [jane] :=
  ⟨C8_customer_lines_by_field_count "customers.txt" _ _ (by
      intro line hl h8
      simp only [List.mem_cons, List.mem_singleton, List.not_mem_nil, or_false] at hl
      rcases hl with rfl | rfl | rfl
      · exact absurd h8 (by decide)
      · exact ⟨1, by decide⟩
      · exact absurd h8 (by decide)),
    by decide⟩

/-! ## Duplicate identifiers (C9) -/

theorem read_items_line_wf {D : Type} [DoubleModel D] (line : String) (r : Item D)
    (st : Globals D) (h : WellFormedItemLine line r) :
    read_items_line line st = .ok { st with items := st.items ++ [r] } := by
  obtain ⟨f0, f2, hs, h0, h2⟩ := h
  simp only [read_items_line, hs, h0, ok_bind, h2]
  rfl

theorem read_items_loop_wf {D : Type} [DoubleModel D] (lines : List String)
    (recs : List (Item D)) (h : List.Forall₂ WellFormedItemLine lines recs) (st : Globals D) :
    read_items_loop lines st = .ok { st with items := st.items ++ recs } := by
  induction h generalizing st with
  | nil => simp [read_items_loop, pure_eq_ok]
  | @cons line r lines recs hw _ ih =>
    rw [read_items_loop, read_items_line_wf line r st hw, ok_bind, ih]
    simp

/-- With the first record of id `r.item_id` being `r`, every token with that
id resolves to `r`. -/
theorem resolved_line_items_first {D : Type} (pre post : List (Item D))
    (r : Item D) (h : ∀ x ∈ pre, x.item_id ≠ r.item_id) (parsed : List (Int × Int)) :
    (resolved_line_items (pre ++ r :: post) parsed).filter
        (fun li => decide (li.item.item_id = r.item_id)) =
      (parsed.filter (fun pr => decide (pr.1 = r.item_id))).map
        (fun pr => { item := r, quantity := pr.2 }) := by
  induction parsed with
  | nil => simp [resolved_line_items]
  | cons pr rest ih =>
    unfold resolved_line_items at ih ⊢
    by_cases hid : pr.1 = r.item_id
    · have hf : find_item (pre ++ r :: post) r.item_id = some r := find_item_first pre post r h
      simp only [List.filterMap_cons, hid, hf, Option.map_some', List.filter_cons, decide_True,
        if_true, List.map_cons, ih]
    · cases hf : find_item (pre ++ r :: post) pr.1 with
      | none =>
        simp only [List.filterMap_cons, hf, Option.map_none', List.filter_cons, hid,
          decide_False, Bool.false_eq_true, if_false, ih]
      | some itm =>
        have hitm : itm.item_id ≠ r.item_id := by
          rw [(find_item_some _ _ _ hf).2]; exact hid
        simp only [List.filterMap_cons, hf, Option.map_some', List.filter_cons, hitm, hid,
          decide_False, Bool.false_eq_true, if_false, ih]

theorem get?_append_length {α : Type} (pre post : List α) (c : α) :
    (pre ++ c :: post).get? pre.length = some c := by
  induction pre with
  | nil => rfl
  | cons x rest ih => simpa using ih

/-- C9: duplicate identifiers are kept and lookups return the first match.
(a) For every items file of well-formed lines, `read_items` appends one record
per line in file order, whatever the ids, so two lines with the same id give
two records. (b) When `r` is the first record of the item table with its id
(further records with that id may follow), the order added for a header with a
resolvable customer and a valid payment line has, for the tokens with that id,
line items holding `r` with the token's quantity. (c) When `c` is the first
customer record with its id, the order added for a header with that customer
id refers to `c`'s position in the table. -/
theorem C9_duplicates_kept_first_match_wins {D : Type} [DoubleModel D]
    (is_null : Nat → Bool) (file : String) :
    (∀ (lines : List String) (recs : List (Item D)) (st : Globals D),
      List.Forall₂ WellFormedItemLine lines recs →
      read_items file (some lines) st = .ok { st with items := st.items ++ recs }) ∧
    (∀ (st : Globals D) (pre post : List (Item D)) (r : Item D) (line pline : String)
      (cid oid : Int) (date : String) (parsed : List (Int × Int)),
      st.items = pre ++ r :: post → (∀ x ∈ pre, x.item_id ≠ r.item_id) →
      WellFormedHeader line cid oid date parsed → known_customer st.customers cid = true →
      ValidPaymentLine pline →
      ∃ st' o, read_orders is_null file (some [line, pline]) st = .ok st' ∧
        st'.orders = st.orders ++ [o] ∧
        o.line_items.filter (fun li => decide (li.item.item_id = r.item_id)) =
          (parsed.filter (fun pr => decide (pr.1 = r.item_id))).map
            (fun pr => { item := r, quantity := pr.2 })) ∧
    (∀ (st : Globals D) (pre post : List Customer) (c : Customer) (line pline : String)
      (oid : Int) (date : String) (parsed : List (Int × Int)),
      st.customers = pre ++ c :: post → (∀ x ∈ pre, x.customer_id ≠ c.customer_id) →
      WellFormedHeader line c.customer_id oid date parsed → ValidPaymentLine pline →
      ∃ st' o, read_orders is_null file (some [line, pline]) st = .ok st' ∧
        st'.orders = st.orders ++ [o] ∧ o.customer = pre.length ∧
        st'.customers.get? o.customer = some c) := by
  refine ⟨?_, ?_, ?_⟩
  · intro lines recs st h
    exact read_items_loop_wf lines recs h st
  · intro st pre post r line pline cid oid date parsed hitems hpre hw hc hp
    obtain ⟨cust, hcust⟩ := known_customer_find st.customers cid hc
    obtain ⟨p, hsel⟩ := select_payment_valid (D := D) pline
      (uninitialized_payment (is_null (([] : List String).length + 1))) hp
    have hrun :=
      read_orders_loop_pair is_null line pline [] st cid oid date parsed cust p hw hcust hsel
    refine ⟨_, assembled_order oid date cust (resolved_line_items st.items parsed) p,
      hrun none, rfl, ?_⟩
    show (resolved_line_items st.items parsed).filter _ = _
    rw [hitems]
    exact resolved_line_items_first pre post r hpre parsed
  · intro st pre post c line pline oid date parsed hcs hpre hw hp
    have hcust : find_customer st.customers c.customer_id = some pre.length := by
      rw [hcs]; exact find_customer_first pre post c hpre
    obtain ⟨p, hsel⟩ := select_payment_valid (D := D) pline
      (uninitialized_payment (is_null (([] : List String).length + 1))) hp
    have hrun := read_orders_loop_pair is_null line pline [] st c.customer_id oid date parsed
      pre.length p hw hcust hsel
    refine ⟨_, assembled_order oid date pre.length (resolved_line_items st.items parsed) p,
      hrun none, rfl, rfl, ?_⟩
    show st.customers.get? pre.length = some c
    rw [hcs]
    exact get?_append_length pre post c

/-- C9 at an items file with two lines of id 10, and at tables where `pear`
follows `apple` (both id 10) and `joan` follows `jane` (both id 1). -/
theorem C9_duplicates_kept_first_match_wins_witness :
    read_items "items.txt" (some ["10,Apple,0.50", "10,Pear,0.75"])
        (Globals.init : Globals Rat) =
      .ok { (Globals.init : Globals Rat) with
        items := (Globals.init : Globals Rat).items ++ [apple, pear] } ∧
    (∃ (st' : Globals Rat) (o : Order Rat), read_orders (fun _ => false) "items.txt"
        (some ["1,100,2024-01-01,10-3,20-1,10-2", "2,jane@pay"]) duplicate_tables = .ok st' ∧
        st'.orders = duplicate_tables.orders ++ [o] ∧
        o.line_items.filter (fun li => decide (li.item.item_id = apple.item_id)) =
          ([(10, 3), (20, 1), (10, 2)].filter (fun pr => decide (pr.1 = apple.item_id))).map
            (fun pr => { item := apple, quantity := pr.2 })) ∧
    (∃ (st' : Globals Rat) (o : Order Rat), read_orders (fun _ => false) "items.txt"
        (some ["1,100,2024-01-01,10-3,20-1,10-2", "2,jane@pay"]) duplicate_tables = .ok st' ∧
        st'.orders = duplicate_tables.orders ++ [o] ∧ o.customer = ([] : List Customer).length ∧
        st'.customers.get? o.customer = some jane) :=
  have hw : WellFormedHeader "1,100,2024-01-01,10-3,20-1,10-2" 1 100 "2024-01-01"
      [(10, 3), (20, 1), (10, 2)] :=
    ⟨"1", "100", "10-3", ["20-1", "10-2"], by decide, by decide, by decide,
      List.Forall₂.cons ⟨"10", "3", [], by decide, by decide, by decide⟩
        (List.Forall₂.cons ⟨"20", "1", [], by decide, by decide, by decide⟩
          (List.Forall₂.cons ⟨"10", "2", [], by decide, by decide, by decide⟩
            List.Forall₂.nil))⟩
  have hp : ValidPaymentLine "2,jane@pay" := Or.inr (Or.inl ⟨"jane@pay", by decide⟩)
  have h := C9_duplicates_kept_first_match_wins (D := Rat) (fun _ => false) "items.txt"
  ⟨h.1 ["10,Apple,0.50", "10,Pear,0.75"] [apple, pear] Globals.init
      (List.Forall₂.cons ⟨"10", "0.50", by decide, by decide, by decide⟩
        (List.Forall₂.cons ⟨"10", "0.75", by decide, by decide, by decide⟩ List.Forall₂.nil)),
   h.2.1 duplicate_tables [] [pear, bread] apple _ _ 1 100 "2024-01-01" _ rfl
      (by intro x hx; cases hx) hw (by decide) hp,
   h.2.2 duplicate_tables [] [joan] jane _ _ 100 "2024-01-01" _ rfl
      (by intro x hx; cases hx) hw hp⟩

/-! ## Orders in file order (C10) -/

theorem read_orders_loop_pairs {D : Type} [DoubleModel D] (is_null : Nat → Bool)
    (customers : List Customer) (pairs : List (String × String)) (ids : List Int)
    (h : List.Forall₂ (WellFormedPair customers) pairs ids) (slot : Option Nat)
    (st : Globals D) (hst : st.customers = customers) :
    ∃ st', read_orders_loop is_null (lines_of_pairs pairs) slot st = .ok st' ∧
      st'.orders.map (fun o => o.order_id) = st.orders.map (fun o => o.order_id) ++ ids ∧
      st'.orders.length = st.orders.length + pairs.length := by
  induction h generalizing st slot with
  | nil => exact ⟨st, rfl, by simp, by simp⟩
  | @cons pr oid pairs ids hpair _ ih =>
    obtain ⟨⟨cid, date, parsed, hw, hc⟩, hp⟩ := hpair
    rw [← hst] at hc
    obtain ⟨cust, hcust⟩ := known_customer_find st.customers cid hc
    obtain ⟨p, hsel⟩ := select_payment_valid (D := D) pr.2
      (uninitialized_payment (is_null ((lines_of_pairs pairs).length + 1))) hp
    have hrun := read_orders_loop_pair is_null pr.1 pr.2 (lines_of_pairs pairs) st cid oid date
      parsed cust p hw hcust hsel
    obtain ⟨st', hok, hids, hlen⟩ := ih (some st.orders.length)
      { st with
        orders := st.orders ++
          [assembled_order oid date cust (resolved_line_items st.items parsed) p],
        cerr := st.cerr ++ item_complaints st.items parsed } hst
    refine ⟨st', ?_, ?_, ?_⟩
    · rw [lines_of_pairs, hrun, hok]
    · rw [hids]
      simp [assembled_order]
    · rw [hlen]
      simp only [List.length_append, List.length_cons, List.length_nil]
      omega

/-- C10: for every orders file made of n well-formed (header, payment line)
pairs, each header having more than 3 fields and a resolvable customer and
each payment line being valid, `read_orders` returns with exactly n more
orders, whose order ids are the headers' order ids in file order; repeated
order ids are kept. -/
theorem C10_one_order_per_pair_in_file_order {D : Type} [DoubleModel D]
    (is_null : Nat → Bool) (file : String) (st : Globals D)
    (pairs : List (String × String)) (ids : List Int)
    (h : List.Forall₂ (WellFormedPair st.customers) pairs ids) :
    ∃ st', read_orders is_null file (some (lines_of_pairs pairs)) st = .ok st' ∧
      st'.orders.map (fun o => o.order_id) = st.orders.map (fun o => o.order_id) ++ ids ∧
      st'.orders.length = st.orders.length + pairs.length :=
  read_orders_loop_pairs is_null st.customers pairs ids h none st rfl

/-- C10 at three pairs on the tables of the example, the order id 100 occurring
twice. -/
theorem C10_one_order_per_pair_in_file_order_witness :
    ∃ st' : Globals Rat, read_orders (fun _ => false) "orders.txt"
        (some (lines_of_pairs
          [("1,100,2024-01-01,10-3", "1,4567,12/25"), ("1,101,2024-01-02,20-1", "2,jane@pay"),
           ("1,100,2024-01-03,10-1", "3,0042,998877")])) example_tables = .ok st' ∧
      st'.orders.map (fun o => o.order_id) =
        example_tables.orders.map (fun o => o.order_id) ++ [100, 101, 100] ∧
      st'.orders.length = example_tables.orders.length +
        [("1,100,2024-01-01,10-3", "1,4567,12/25"), ("1,101,2024-01-02,20-1", "2,jane@pay"),
         ("1,100,2024-01-03,10-1", "3,0042,998877")].length :=
  C10_one_order_per_pair_in_file_order (fun _ => false) "orders.txt" example_tables _ _
    (List.Forall₂.cons
      ⟨⟨1, "2024-01-01", [(10, 3)], ⟨"1", "100", "10-3", [], by decide, by decide, by decide,
          List.Forall₂.cons ⟨"10", "3", [], by decide, by decide, by decide⟩ List.Forall₂.nil⟩,
        by decide⟩, Or.inl ⟨"4567", "12/25", by decide⟩⟩
      (List.Forall₂.cons
        ⟨⟨1, "2024-01-02", [(20, 1)], ⟨"1", "101", "20-1", [], by decide, by decide, by decide,
            List.Forall₂.cons ⟨"20", "1", [], by decide, by decide, by decide⟩ List.Forall₂.nil⟩,
          by decide⟩, Or.inr (Or.inl ⟨"jane@pay", by decide⟩)⟩
        (List.Forall₂.cons
          ⟨⟨1, "2024-01-03", [(10, 1)], ⟨"1", "100", "10-1", [], by decide, by decide, by decide,
              List.Forall₂.cons ⟨"10", "1", [], by decide, by decide, by decide⟩
                List.Forall₂.nil⟩,
            by decide⟩, Or.inr (Or.inr ⟨"0042", "998877", by decide⟩)⟩
          List.Forall₂.nil)))

/-! ## A short line in header position (C11) -/

/-- C11: a line in header position that splits into at most 3 fields adds no
order and reports exactly one error; only that line is consumed, and the run
goes on as `read_orders` does on the remaining lines, the first of which is
read as a header. -/
theorem C11_short_line_in_header_position {D : Type} [DoubleModel D] (is_null : Nat → Bool)
    (file line : String) (rest : List String) (st : Globals D)
    (h : (split line ',').length ≤ 3) :
    read_orders is_null file (some (line :: rest)) st =
      read_orders is_null file (some rest)
        { st with cerr := st.cerr ++ ["Error: Unexpected format in line: " ++ line] } ∧
    read_orders is_null file (some [line]) st =
      .ok { st with cerr := st.cerr ++ ["Error: Unexpected format in line: " ++ line] } := by
  constructor
  · exact read_orders_loop_next is_null line rest st _ (read_header_short _ line st h) none
  · exact read_orders_loop_next is_null line [] st _ (read_header_short _ line st h) none

/-- C11 at the line `1,4567,12/25` in front of the orders file of the
example: the example's order is still assembled from the two lines after it. -/
theorem C11_short_line_in_header_position_witness :
    (read_orders (fun _ => false) "orders.txt" (some ("1,4567,12/25" :: example_orders))
        example_tables =
      read_orders (fun _ => false) "orders.txt" (some example_orders)
        { example_tables with
          cerr := example_tables.cerr ++ ["Error: Unexpected format in line: " ++ "1,4567,12/25"] } ∧
    read_orders (fun _ => false) "orders.txt" (some ["1,4567,12/25"]) example_tables =
      .ok { example_tables with
        cerr := example_tables.cerr ++
          ["Error: Unexpected format in line: " ++ "1,4567,12/25"] }) ∧
    read_orders (fun _ => false) "orders.txt" (some ("1,4567,12/25" :: example_orders))
        example_tables =
      .ok { example_tables with
        orders := [example_order],
        cerr := ["Error: Unexpected format in line: 1,4567,12/25"] } :=
  ⟨C11_short_line_in_header_position (fun _ => false) "orders.txt" "1,4567,12/25"
      example_orders example_tables (by decide), by decide⟩

/-! ## Interactive lookup: unknown customer (C12) -/

theorem customer_found_eq (customers : List Customer) (customerInput : Int) :
    customer_found customers customerInput = known_customer customers customerInput := by
  induction customers with
  | nil => rfl
  | cons c rest ih =>
    unfold customer_found
    by_cases h : c.customer_id = customerInput
    · simp [h, known_customer]
    · simp only [h, if_false, ih]
      simp [known_customer, h]

/-- C12: when the entered customer id matches no loaded customer,
`one_customer_order` writes the two counts, the prompt for the customer id and
the not-found message, and returns at once: no prompt for an item id is
written, nothing more is read from standard input, and no purchase is counted
or summarized (the return comes before `purchased` is declared). -/
theorem C12_unknown_customer_returns_at_once {D : Type} [DoubleModel D] [DoubleOutput D]
    (st : Globals D) (customerInput : Int) (cin : List Int)
    (h : known_customer st.customers customerInput = false) :
    one_customer_order st (customerInput :: cin) =
      .ok (.not_found
        ("Customers: " ++ toString st.customers.length ++ " Items: " ++
          toString st.items.length ++ "\n" ++ "Enter customer id: " ++
          "Customer with id " ++ toString customerInput ++ " not found." ++ "\n")
        cin) := by
  unfold one_customer_order
  simp only [customer_found_eq, h, Bool.false_eq_true, if_false]

/-- C12 on the tables of the example with the input `7 10 0`. -/
theorem C12_unknown_customer_returns_at_once_witness :
    one_customer_order example_tables (7 :: [10, 0]) =
      .ok (.not_found
        ("Customers: " ++ toString example_tables.customers.length ++ " Items: " ++
          toString example_tables.items.length ++ "\n" ++ "Enter customer id: " ++
          "Customer with id " ++ toString (7 : Int) ++ " not found." ++ "\n")
        [10, 0]) ∧
    "Customers: " ++ toString example_tables.customers.length ++ " Items: " ++
          toString example_tables.items.length ++ "\n" ++ "Enter customer id: " ++
          "Customer with id " ++ toString (7 : Int) ++ " not found." ++ "\n" =
      "Customers: 1 Items: 2\nEnter customer id: Customer with id 7 not found.\n" :=
  ⟨C12_unknown_customer_returns_at_once example_tables 7 [10, 0] (by decide), by decide⟩

/-! ## The field splitter (C13) -/

theorem split_chars_no_delim (delim : Char) (cs cur : List Char) (h : delim ∉ cs) :
    split_chars delim cs cur = [cur.reverse ++ cs] := by
  induction cs generalizing cur with
  | nil => simp [split_chars]
  | cons c rest ih =>
    have hc : c ≠ delim := fun e => h (by rw [e]; exact List.mem_cons_self _ _)
    have hr : delim ∉ rest := fun m => h (List.mem_cons_of_mem _ m)
    rw [split_chars, if_neg hc, ih _ hr]
    simp

/-- C13: for every line that contains no `,`, `split(line, ',')` yields exactly
one field, equal to the line (the empty line included). -/
theorem C13_split_line_without_comma (line : String) (h : ',' ∉ line.toList) :
    split line ',' = [line] := by
  unfold split
  rw [split_chars_no_delim ',' line.toList [] h]
  rfl

/-- C13 at the line `Jane Doe`. -/
theorem C13_split_line_without_comma_witness : split "Jane Doe" ',' = ["Jane Doe"] :=
  C13_split_line_without_comma "Jane Doe" (by decide)

/-! ## Interactive lookup: the item loop (C14) -/

/-- The item search adds the price of every record with the entered id and
counts each of them. -/
theorem search_items_eq {D : Type} [DoubleModel D] (itemInput : Int) (items : List (Item D))
    (total : D) (purchased : Nat) (item_found : Bool) :
    search_items itemInput items (total, purchased, item_found) =
      ((matching_items items itemInput).foldl (fun acc itm => DoubleModel.add acc itm.price) total,
        purchased + (matching_items items itemInput).length,
        item_found || known_item items itemInput) := by
  induction items generalizing total purchased item_found with
  | nil => simp [search_items, matching_items, known_item]
  | cons itm rest ih =>
    unfold search_items
    by_cases h : itm.item_id = itemInput
    · rw [if_pos h, ih]
      simp [matching_items, known_item, h, List.filter_cons]
      omega
    · rw [if_neg h, ih]
      simp [matching_items, known_item, h, List.filter_cons]

theorem item_loop_ids {D : Type} [DoubleModel D] [DoubleOutput D] (items : List (Item D))
    (ids rest : List Int) (hz : ∀ id ∈ ids, id ≠ 0) (cout : String) (purchased : Nat)
    (total : D) :
    item_loop items (ids ++ 0 :: rest) cout purchased total =
      .ok (.done
        (cout ++ (lookup_transcript items ids ++ ("Enter item id (0 to exit): " ++
          ("Number of items purchased: " ++
            (toString (purchased + (ids.map (fun id => (matching_items items id).length)).sum) ++
              (" Total: $" ++
                (DoubleOutput.fixed2 (ids.foldl (fun acc id => (matching_items items id).foldl
                  (fun a itm => DoubleModel.add a itm.price) acc) total) ++ "\n")))))))
        rest
        (purchased + (ids.map (fun id => (matching_items items id).length)).sum)
        (ids.foldl (fun acc id => (matching_items items id).foldl
          (fun a itm => DoubleModel.add a itm.price) acc) total)) := by
  induction ids generalizing cout purchased total with
  | nil =>
    simp only [List.nil_append, item_loop, if_true, lookup_transcript, List.map_nil, List.sum_nil,
      Nat.add_zero, List.foldl_nil, String.append_assoc, String.empty_append]
  | cons id ids ih =>
    have hid : id ≠ 0 := hz id (List.mem_cons_self _ _)
    have hrest : ∀ x ∈ ids, x ≠ 0 := fun x hx => hz x (List.mem_cons_of_mem _ hx)
    rw [List.cons_append, item_loop]
    simp only [hid, if_false, search_items_eq, Bool.false_or]
    rw [ih hrest]
    cases hk : known_item items id with
    | true =>
      simp only [if_true, lookup_transcript, hk, List.map_cons, List.sum_cons, List.foldl_cons,
        String.append_assoc, String.empty_append, Nat.add_assoc]
    | false =>
      simp only [Bool.false_eq_true, if_false, lookup_transcript, hk, List.map_cons, List.sum_cons,
        List.foldl_cons, String.append_assoc, Nat.add_assoc]

/-- C14: for a found customer and item ids `ids` (none of them 0) followed by
a 0, `one_customer_order` stops at that 0 and leaves the rest of the input
unread. The purchased count is, summed over the entered ids, the number of
item records with the entered id (an id shared by k records adds k); the total
is the sum of those records' prices, added in entry order and, within an
entry, in table order; an id that matches no record adds nothing and gets the
line `Item not found: <id>`. The output is the two counts, the prompt for the
customer id, the prompts and not-found lines of the entries, the last prompt
and the summary line. -/
theorem C14_item_loop_counts_every_matching_record {D : Type} [DoubleModel D] [DoubleOutput D]
    (st : Globals D) (customerInput : Int) (ids rest : List Int)
    (hc : known_customer st.customers customerInput = true)
    (hz : ∀ id ∈ ids, id ≠ 0) :
    one_customer_order st (customerInput :: (ids ++ 0 :: rest)) =
      .ok (.done
        ("Customers: " ++ toString st.customers.length ++ " Items: " ++
          toString st.items.length ++ "\n" ++ "Enter customer id: " ++
          (lookup_transcript st.items ids ++ ("Enter item id (0 to exit): " ++
          ("Number of items purchased: " ++
            (toString (ids.map (fun id => (matching_items st.items id).length)).sum ++
              (" Total: $" ++
                (DoubleOutput.fixed2 (ids.foldl (fun acc id => (matching_items st.items id).foldl
                  (fun a itm => DoubleModel.add a itm.price) acc) DoubleModel.zero) ++ "\n")))))))
        rest
        (ids.map (fun id => (matching_items st.items id).length)).sum
        (ids.foldl (fun acc id => (matching_items st.items id).foldl
          (fun a itm => DoubleModel.add a itm.price) acc) DoubleModel.zero)) ∧
    (∀ id, known_item st.items id = false → matching_items st.items id = []) := by
  constructor
  · unfold one_customer_order
    simp only [customer_found_eq, hc, if_true]
    have hloop := item_loop_ids st.items ids rest hz
      ("Customers: " ++ toString st.customers.length ++ " Items: " ++
        toString st.items.length ++ "\n" ++ "Enter customer id: ") 0 DoubleModel.zero
    simp only [Nat.zero_add] at hloop
    exact hloop
  · intro id hk
    simp only [matching_items, List.filter_eq_nil_iff]
    intro itm hitm
    simp only [known_item, List.any_eq_false] at hk
    exact hk itm hitm

/-- C14 on tables where `apple` and `pear` share the id 10, for the customer 1
and the input `10 99 20 0 5`: id 10 counts twice, 99 is reported, the 5 after
the 0 stays unread. -/
theorem C14_item_loop_counts_every_matching_record_witness :
    (one_customer_order duplicate_tables (1 :: ([10, 99, 20] ++ 0 :: [5])) =
      .ok (.done
        ("Customers: " ++ toString duplicate_tables.customers.length ++ " Items: " ++
          toString duplicate_tables.items.length ++ "\n" ++ "Enter customer id: " ++
          (lookup_transcript duplicate_tables.items [10, 99, 20] ++
          ("Enter item id (0 to exit): " ++
          ("Number of items purchased: " ++
            (toString (([10, 99, 20] : List Int).map
                (fun id => (matching_items duplicate_tables.items id).length)).sum ++
              (" Total: $" ++
                (DoubleOutput.fixed2 (([10, 99, 20] : List Int).foldl
                  (fun acc id => (matching_items duplicate_tables.items id).foldl
                    (fun a itm => DoubleModel.add a itm.price) acc) DoubleModel.zero) ++
                  "\n")))))))
        [5]
        (([10, 99, 20] : List Int).map
          (fun id => (matching_items duplicate_tables.items id).length)).sum
        (([10, 99, 20] : List Int).foldl
          (fun acc id => (matching_items duplicate_tables.items id).foldl
            (fun a itm => DoubleModel.add a itm.price) acc) DoubleModel.zero)) ∧
      (∀ id, known_item duplicate_tables.items id = false →
        matching_items duplicate_tables.items id = [])) ∧
    one_customer_order duplicate_tables [1, 10, 99, 20, 0, 5] =
      .ok (.done
        ("Customers: 2 Items: 3\nEnter customer id: Enter item id (0 to exit): " ++
          "Enter item id (0 to exit): Item not found: 99\nEnter item id (0 to exit): " ++
          "Enter item id (0 to exit): Number of items purchased: 3 Total: $3.25\n")
        [5] 3 (mkRat 13 4)) :=
  ⟨C14_item_loop_counts_every_matching_record duplicate_tables 1 [10, 99, 20] [5] (by decide)
      (by decide), by rfl⟩

/-! ## Payment lines with too few fields (C15) -/

/-- The test of line 261 bounds the number of fields only from above: with
selector `1` or `3` and fewer than 3 fields, or selector `2` and a single
field, lines 264-274 index the vector past its end. -/
theorem select_payment_reads_past_the_end {D : Type} (ptr : PaymentPtr D) (a : String) :
    select_payment ["1"] ptr = .error .undefined_behaviour ∧
    select_payment ["1", a] ptr = .error .undefined_behaviour ∧
    select_payment ["2"] ptr = .error .undefined_behaviour ∧
    select_payment ["3"] ptr = .error .undefined_behaviour ∧
    select_payment ["3", a] ptr = .error .undefined_behaviour :=
  ⟨rfl, rfl, rfl, rfl, rfl⟩

/-- C15: on the tables of the example, the header `1,100,2024-01-01,10-3`
followed by the payment line `1,4567`, `3,0042`, `2`, `1` or `3` does not end
in a reported and skipped order: `fields[2]` (or `fields[1]`) is read although
the vector is shorter, whatever the uninitialized `payment` member holds. -/
theorem C15_short_payment_line_is_indexed_past_its_end (is_null : Nat → Bool) :
    read_orders is_null "orders.txt" (some ["1,100,2024-01-01,10-3", "1,4567"])
        example_tables = .error .undefined_behaviour ∧
    read_orders is_null "orders.txt" (some ["1,100,2024-01-01,10-3", "3,0042"])
        example_tables = .error .undefined_behaviour ∧
    read_orders is_null "orders.txt" (some ["1,100,2024-01-01,10-3", "2"])
        example_tables = .error .undefined_behaviour ∧
    read_orders is_null "orders.txt" (some ["1,100,2024-01-01,10-3", "1"])
        example_tables = .error .undefined_behaviour ∧
    read_orders is_null "orders.txt" (some ["1,100,2024-01-01,10-3", "3"])
        example_tables = .error .undefined_behaviour :=
  ⟨rfl, rfl, rfl, rfl, rfl⟩

/-! ## The rendered order (C16) -/

theorem foldl_item_line {D : Type} [DoubleOutput D] (lis : List (LineItem D)) (ss : String) :
    lis.foldl (fun ss li => ss ++ item_line li) ss = ss ++ item_lines lis := by
  induction lis generalizing ss with
  | nil => simp [item_lines]
  | cons li rest ih => rw [List.foldl_cons, ih, item_lines, String.append_assoc]

theorem print_detail_of_amount {D : Type} [DoubleOutput D] (p : Payment D) (amount : D)
    (ha : p.amount = some amount) :
    ∃ how, p.print_detail =
      .ok ("Amount: $" ++ DoubleOutput.fixed2 amount ++ ", Paid by " ++ how ++ "\n") := by
  cases p with
  | Credit a c e =>
    simp only [Payment.amount] at ha
    subst ha
    refine ⟨"Credit card " ++ c ++ ", exp. " ++ e, ?_⟩
    simp only [Payment.print_detail, String.append_assoc, Except.ok.injEq]
    rw [show ", Paid by Credit card " = ", Paid by " ++ "Credit card " from by decide,
      String.append_assoc]
  | PayPal a i =>
    simp only [Payment.amount] at ha
    subst ha
    refine ⟨"Paypal ID: " ++ i, ?_⟩
    simp only [Payment.print_detail, String.append_assoc, Except.ok.injEq]
    rw [show ", Paid by Paypal ID: " = ", Paid by " ++ "Paypal ID: " from by decide,
      String.append_assoc]
  | WireTransfer a b i =>
    simp only [Payment.amount] at ha
    subst ha
    refine ⟨"Wire transfer from Bank ID " ++ b ++ ", Account # " ++ i, ?_⟩
    simp only [Payment.print_detail, String.append_assoc, Except.ok.injEq]
    rw [show ", Paid by Wire transfer from Bank ID " =
        ", Paid by " ++ "Wire transfer from Bank ID " from by decide,
      String.append_assoc]

set_option maxRecDepth 20000 in
/-- C16: for an order whose payment object holds an amount and whose customer
is in the table, `print_order` returns, in this order: the banner and the line
`Order #<id>, Date: <date>`, an empty line, the payment detail line
(`Amount: $<amount with 2 decimals>, Paid by ...`), an empty line, the customer
detail block, an empty line, the line `Order Detail:`, and then one line per
line item in line-item order, each a tab followed by
`Item <item id>: "<description>", <quantity> @ <unit price with 2 decimals>`.
The diagnostic of line 128 is written exactly when the amount differs from the
sum. For the order of the end-to-end example, which is the order that the
three loaders produce, the block has the line `Item 10: "Apple", 3 @ 0.50`. -/
theorem C16_print_order_layout {D : Type} [DoubleOutput D] (customers : List Customer)
    (o : Order D) (p : Payment D) (amount : D) (c : Customer)
    (hp : o.payment = .obj p) (ha : p.amount = some amount)
    (hc : customers.get? o.customer = some c) :
    (∃ how,
      p.print_detail =
        .ok ("Amount: $" ++ DoubleOutput.fixed2 amount ++ ", Paid by " ++ how ++ "\n") ∧
      o.print_order customers = .ok
        (order_banner ++ toString o.order_id ++ ", Date: " ++ o.order_date ++ "\n\n" ++
          ("Amount: $" ++ DoubleOutput.fixed2 amount ++ ", Paid by " ++ how ++ "\n") ++ "\n" ++
          c.print_detail ++ "\n" ++ "Order Detail:" ++ "\n" ++ item_lines o.line_items,
         if DoubleOutput.ne amount o.sum then some (amount, o.sum, o.order_id) else none)) ∧
    (∀ (li : LineItem D) (rest : List (LineItem D)),
      item_lines (li :: rest) =
        ("\tItem " ++ toString li.item.item_id ++ ": \"" ++ li.item.description ++ "\", " ++
          toString li.quantity ++ " @ " ++ DoubleOutput.fixed2 li.item.price ++ "\n") ++
        item_lines rest) ∧
    item_lines ([] : List (LineItem D)) = "" ∧
    (∀ is_null, load_all is_null (some example_customers) (some example_items)
        (some example_orders) = .ok { example_tables with orders := [example_order] }) ∧
    example_order.print_order example_tables.customers = .ok
      ("------------------------------------------\nOrder #100, Date: 2024-01-01\n\n" ++
       "Amount: $3.50, Paid by Credit card 4567, exp. 12/25\n\n" ++
       "Customer ID #1:\nJane Doe ph. 555-1234, email: jane@x.com\n1 Main St\n" ++
       "Springfield, IL 62704\n\n" ++
       "Order Detail:\n" ++
       "\tItem 10: \"Apple\", 3 @ 0.50\n" ++
       "\tItem 20: \"Bread\", 1 @ 2.00\n", none) := by
  obtain ⟨how, hd⟩ := print_detail_of_amount p amount ha
  refine ⟨⟨how, hd, ?_⟩, fun li rest => rfl, rfl, fun is_null => rfl, by rfl⟩
  unfold Order.print_order
  simp only [hp, hd, ha, ok_bind, pure_eq_ok, hc, foldl_item_line]

/-- C16 at the order of the end-to-end example. -/
theorem C16_print_order_layout_witness :
    ∃ how,
      (Payment.Credit (some (mkRat 7 2)) "4567" "12/25" : Payment Rat).print_detail =
        .ok ("Amount: $" ++ DoubleOutput.fixed2 (mkRat 7 2 : Rat) ++ ", Paid by " ++ how ++ "\n") ∧
      example_order.print_order example_tables.customers = .ok
        (order_banner ++ toString example_order.order_id ++ ", Date: " ++
          example_order.order_date ++ "\n\n" ++
          ("Amount: $" ++ DoubleOutput.fixed2 (mkRat 7 2 : Rat) ++ ", Paid by " ++ how ++ "\n") ++
          "\n" ++ jane.print_detail ++ "\n" ++ "Order Detail:" ++ "\n" ++
          item_lines example_order.line_items,
         if DoubleOutput.ne (mkRat 7 2 : Rat) example_order.sum
           then some (mkRat 7 2, example_order.sum, example_order.order_id) else none) :=
  (C16_print_order_layout example_tables.customers example_order
    (.Credit (some (mkRat 7 2)) "4567" "12/25") (mkRat 7 2) jane rfl rfl rfl).1

/-! ## Referential integrity (C17) -/

theorem line_items_loop_origin {D : Type} (items : List (Item D)) (toks : List String)
    (lis : List (LineItem D)) (cerr : List String) (lis' : List (LineItem D))
    (cerr' : List String) (h : line_items_loop items toks lis cerr = .ok (lis', cerr')) :
    ∀ li ∈ lis', li ∈ lis ∨
      (li.item ∈ items ∧ ∃ t ∈ toks, parse_token t = .ok (li.item.item_id, li.quantity)) := by
  induction toks generalizing lis cerr with
  | nil =>
    rw [line_items_loop, pure_eq_ok] at h
    injection h with h
    injection h with h1 h2
    subst h1
    exact fun li hli => Or.inl hli
  | cons tok toks ih =>
    rw [line_items_loop, bind_eq_ok] at h
    obtain ⟨⟨item_id, quantity⟩, hpt, h⟩ := h
    simp only [] at h
    intro li hli
    cases hf : find_item items item_id with
    | none =>
      simp only [hf] at h
      rcases ih _ _ h li hli with h1 | ⟨h1, t, ht, hp⟩
      · exact Or.inl h1
      · exact Or.inr ⟨h1, t, List.mem_cons_of_mem _ ht, hp⟩
    | some itm =>
      simp only [hf] at h
      rcases ih _ _ h li hli with h1 | ⟨h1, t, ht, hp⟩
      · rcases List.mem_append.mp h1 with h0 | h0
        · exact Or.inl h0
        · rw [List.mem_singleton] at h0
          subst h0
          obtain ⟨hmem, hid⟩ := find_item_some items item_id itm hf
          refine Or.inr ⟨hmem, tok, List.mem_cons_self _ _, ?_⟩
          simp only [hid]
          exact hpt
      · exact Or.inr ⟨h1, t, List.mem_cons_of_mem _ ht, hp⟩

theorem read_header_origin {D : Type} [DoubleModel D] (b : Bool) (line : String)
    (st st' : Globals D) (o : Order D) (h : read_header b line st = .ok (.awaiting o st')) :
    RefersTo st.customers st.items line o := by
  unfold read_header at h
  split at h
  · rename_i f0 f1 f2 tok toks hs
    rw [bind_eq_ok] at h
    obtain ⟨cid, h0, h⟩ := h
    rw [bind_eq_ok] at h
    obtain ⟨oid, -, h⟩ := h
    cases hc : find_customer st.customers cid with
    | none =>
      simp only [hc, pure_eq_ok] at h
      injection h with h
      cases h
    | some cust =>
      simp only [hc] at h
      rw [bind_eq_ok] at h
      obtain ⟨⟨lis, errs⟩, hl, h⟩ := h
      simp only [pure_eq_ok] at h
      injection h with h
      injection h with h1 h2
      subst h1
      obtain ⟨c, hget, hid⟩ := find_customer_some st.customers cid cust hc
      refine ⟨f0, f1, f2, tok, toks, cid, c, hs, h0, hget, hid, ?_⟩
      intro li hli
      rcases line_items_loop_origin st.items (tok :: toks) [] st.cerr lis errs hl li hli with h1 | h1
      · cases h1
      · exact h1
  · simp only [pure_eq_ok] at h
    injection h with h
    cases h

theorem refersTo_congr {D : Type} (customers : List Customer) (items : List (Item D))
    (line : String) (o o' : Order D) (hc : o'.customer = o.customer)
    (hl : o'.line_items = o.line_items) (h : RefersTo customers items line o) :
    RefersTo customers items line o' := by
  obtain ⟨f0, f1, f2, tok, toks, cid, c, hs, h0, hget, hid, hli⟩ := h
  exact ⟨f0, f1, f2, tok, toks, cid, c, hs, h0, by rw [hc]; exact hget, hid,
    by rw [hl]; exact hli⟩

theorem appendsFrom_same {D : Type} (lines : List String) {a b : Globals D}
    (h : b.customers = a.customers ∧ b.items = a.items ∧ b.orders = a.orders) :
    AppendsFrom lines a b :=
  ⟨h.1, h.2.1, [], by simp [h.2.2], by simp⟩

/-- A store through a shared pointer leaves the orders in front of the
sharing ones as they are. -/
theorem store_amount_append {D : Type} (sum : D) (a b : List (Order D)) (n : Nat)
    (h : a.length ≤ n) :
    store_amount sum n (a ++ b) = a ++ store_amount sum (n - a.length) b := by
  induction a generalizing n with
  | nil => simp
  | cons x rest ih =>
    cases n with
    | zero => simp at h
    | succ m =>
      have hm : rest.length ≤ m := by
        simp only [List.length_cons] at h
        omega
      rw [List.cons_append]
      simp only [store_amount, ih m hm, List.length_cons, Nat.add_sub_add_right,
        List.cons_append]

/-- A store through a shared pointer changes nothing of an order but its
payment object. -/
theorem store_amount_mem {D : Type} (sum : D) (n : Nat) (l : List (Order D)) (o : Order D)
    (h : o ∈ store_amount sum n l) :
    ∃ o0 ∈ l, o.customer = o0.customer ∧ o.line_items = o0.line_items ∧
      o.order_id = o0.order_id ∧ o.order_date = o0.order_date ∧ o.sum = o0.sum := by
  induction l generalizing n with
  | nil => simp [store_amount] at h
  | cons x rest ih =>
    cases n with
    | zero =>
      simp only [store_amount, List.mem_cons] at h
      rcases h with h | h
      · subst h
        exact ⟨x, List.mem_cons_self _ _, rfl, rfl, rfl, rfl, rfl⟩
      · obtain ⟨o0, hm, hrest⟩ := ih 0 h
        exact ⟨o0, List.mem_cons_of_mem _ hm, hrest⟩
    | succ m =>
      simp only [store_amount, List.mem_cons] at h
      rcases h with h | h
      · subst h
        exact ⟨o, List.mem_cons_self _ _, rfl, rfl, rfl, rfl, rfl⟩
      · obtain ⟨o0, hm, hrest⟩ := ih m h
        exact ⟨o0, List.mem_cons_of_mem _ hm, hrest⟩

theorem appendsFrom_tables {D : Type} (all : List String) {st0 a b : Globals D}
    (hinv : AppendsFrom all st0 a)
    (h : b.customers = a.customers ∧ b.items = a.items ∧ b.orders = a.orders) :
    AppendsFrom all st0 b := by
  obtain ⟨hc, hi, new, ho, ht⟩ := hinv
  exact ⟨h.1.trans hc, h.2.1.trans hi, new, h.2.2.trans ho, ht⟩

theorem appendsFrom_push {D : Type} (all : List String) {st0 a b : Globals D} (o : Order D)
    (line : String) (hline : line ∈ all) (hinv : AppendsFrom all st0 a)
    (hc : b.customers = a.customers) (hi : b.items = a.items) (ho : b.orders = a.orders ++ [o])
    (hr : RefersTo st0.customers st0.items line o) : AppendsFrom all st0 b := by
  obtain ⟨hc0, hi0, new, ho0, ht⟩ := hinv
  refine ⟨hc.trans hc0, hi.trans hi0, new ++ [o], ?_, ?_⟩
  · rw [ho, ho0, List.append_assoc]
  · intro x hx
    rcases List.mem_append.mp hx with h | h
    · exact ht x h
    · rw [List.mem_singleton] at h
      subst h
      exact ⟨line, hline, hr⟩

theorem finish_order_appendsFrom {D : Type} [DoubleModel D] (all : List String)
    (line : String) (hline : line ∈ all) (o : Order D) (st0 st st' : Globals D)
    (hinv : AppendsFrom all st0 st) (hr : RefersTo st0.customers st0.items line o)
    (h : finish_order o st = .ok st') : AppendsFrom all st0 st' := by
  obtain ⟨hc, hi, ho⟩ := finish_order_ok o st st' h
  rcases ho with ho | ⟨o', ht, ho⟩
  · exact appendsFrom_tables all hinv ⟨hc, hi, ho⟩
  · obtain ⟨-, -, hl, hcu, -⟩ := total_totalled o o' ht
    exact appendsFrom_push all o' line hline hinv hc hi ho
      (refersTo_congr _ _ line o o' hcu hl hr)

theorem finish_order_stale_appendsFrom {D : Type} [DoubleModel D] (all : List String)
    (line : String) (hline : line ∈ all) (n : Nat) (o : Order D) (st0 st st' : Globals D)
    (hinv : AppendsFrom all st0 st) (hn : st0.orders.length ≤ n)
    (hr : RefersTo st0.customers st0.items line o)
    (h : finish_order_stale n o st = .ok st') : AppendsFrom all st0 st' := by
  unfold finish_order_stale at h
  cases hg : st.orders.get? n with
  | none =>
    rw [hg] at h
    cases h
  | some owner =>
    rw [hg] at h
    cases hp : owner.payment with
    | nullptr =>
      simp only [hp] at h
      cases h
    | wild =>
      simp only [hp] at h
      cases h
    | obj p =>
      simp only [hp] at h
      injection h with h
      subst h
      obtain ⟨hc0, hi0, new, ho0, ht⟩ := hinv
      refine ⟨hc0, hi0,
        store_amount (sum_line_items o.line_items) (n - st0.orders.length) new ++
          [{ o with sum := sum_line_items o.line_items,
                    payment := .obj (p.set_amount (sum_line_items o.line_items)) }], ?_, ?_⟩
      · show store_amount _ n st.orders ++ _ = _
        rw [ho0, store_amount_append _ _ _ _ hn, List.append_assoc]
      · intro x hx
        rcases List.mem_append.mp hx with h | h
        · obtain ⟨x0, hx0, hcu, hl, -⟩ := store_amount_mem _ _ _ _ h
          obtain ⟨l, hl0, hr0⟩ := ht x0 hx0
          exact ⟨l, hl0, refersTo_congr _ _ l x0 x hcu hl hr0⟩
        · rw [List.mem_singleton] at h
          subst h
          exact ⟨line, hline, refersTo_congr _ _ line o _ rfl rfl hr⟩

theorem finish_payment_appendsFrom {D : Type} [DoubleModel D] (all : List String)
    (line : String) (hline : line ∈ all) (slot : Option Nat) (o : Order D)
    (st0 st : Globals D) (r : Globals D × Option Nat)
    (hinv : AppendsFrom all st0 st) (hslot : ∀ n, slot = some n → st0.orders.length ≤ n)
    (hr : RefersTo st0.customers st0.items line o)
    (h : finish_payment slot o st = .ok r) :
    AppendsFrom all st0 r.1 ∧ ∀ n, r.2 = some n → st0.orders.length ≤ n := by
  unfold finish_payment at h
  split at h
  · rename_i n hp
    rw [bind_eq_ok] at h
    obtain ⟨s1, h1, h⟩ := h
    simp only [pure_eq_ok] at h
    injection h with h
    subst h
    exact ⟨finish_order_stale_appendsFrom all line hline n o st0 st s1 hinv (hslot n rfl) hr h1,
      hslot⟩
  · rw [bind_eq_ok] at h
    obtain ⟨s1, h1, h⟩ := h
    simp only [pure_eq_ok] at h
    injection h with h
    subst h
    refine ⟨finish_order_appendsFrom all line hline o st0 st s1 hinv hr h1, ?_⟩
    intro n hn
    injection hn with hn
    subst hn
    obtain ⟨-, -, new, ho, -⟩ := hinv
    rw [ho, List.length_append]
    omega
  · rw [bind_eq_ok] at h
    obtain ⟨s1, h1, h⟩ := h
    simp only [pure_eq_ok] at h
    injection h with h
    subst h
    exact ⟨finish_order_appendsFrom all line hline o st0 st s1 hinv hr h1, hslot⟩

theorem read_header_refers {D : Type} [DoubleModel D] (all : List String) (b : Bool)
    (line : String) (st0 st st' : Globals D) (o : Order D) (hinv : AppendsFrom all st0 st)
    (h : read_header b line st = .ok (.awaiting o st')) :
    RefersTo st0.customers st0.items line o := by
  have href := read_header_origin b line st st' o h
  rw [hinv.1, hinv.2.1] at href
  exact href

theorem read_orders_loop_appendsFrom_aux {D : Type} [DoubleModel D] (is_null : Nat → Bool)
    (all : List String) (st0 : Globals D) (lines : List String) :
    (∀ (slot : Option Nat) (st st' : Globals D), (∀ y ∈ lines, y ∈ all) →
      AppendsFrom all st0 st → (∀ n, slot = some n → st0.orders.length ≤ n) →
      read_orders_loop is_null lines slot st = .ok st' → AppendsFrom all st0 st') ∧
    (∀ (x : String) (slot : Option Nat) (st st' : Globals D), (∀ y ∈ x :: lines, y ∈ all) →
      AppendsFrom all st0 st → (∀ n, slot = some n → st0.orders.length ≤ n) →
      read_orders_loop is_null (x :: lines) slot st = .ok st' → AppendsFrom all st0 st') := by
  induction lines with
  | nil =>
    refine ⟨fun slot st st' _ hinv _ h => ?_, fun x slot st st' hsub hinv hslot h => ?_⟩
    · rw [read_orders_loop, pure_eq_ok] at h
      injection h with h
      subst h
      exact hinv
    · rw [read_orders_loop, bind_eq_ok] at h
      obtain ⟨r, hr, h⟩ := h
      have ht := read_header_tables _ _ _ _ hr
      cases r with
      | next s1 =>
        simp only [pure_eq_ok] at h
        injection h with h
        subst h
        exact appendsFrom_tables all hinv (ht.1 _ rfl)
      | awaiting o s1 =>
        simp only [bind_eq_ok, pure_eq_ok] at h
        obtain ⟨r, hf, h⟩ := h
        injection h with h
        subst h
        exact (finish_payment_appendsFrom all x (hsub x (List.mem_cons_self _ _)) slot o st0 s1 r
          (appendsFrom_tables all hinv (ht.2 _ _ rfl)) hslot
          (read_header_refers all _ x st0 st s1 o hinv hr) hf).1
  | cons pline rest ih =>
    refine ⟨fun slot st st' hsub hinv hslot h => ih.2 pline slot st st' hsub hinv hslot h,
      fun x slot st st' hsub hinv hslot h => ?_⟩
    have hsub1 : ∀ y ∈ pline :: rest, y ∈ all := fun y hy => hsub y (List.mem_cons_of_mem _ hy)
    have hsub2 : ∀ y ∈ rest, y ∈ all := fun y hy => hsub1 y (List.mem_cons_of_mem _ hy)
    rw [read_orders_loop, bind_eq_ok] at h
    obtain ⟨r, hr, h⟩ := h
    have ht := read_header_tables _ _ _ _ hr
    cases r with
    | next s1 =>
      exact ih.2 pline slot s1 st' hsub1 (appendsFrom_tables all hinv (ht.1 _ rfl)) hslot h
    | awaiting o s1 =>
      simp only [bind_eq_ok] at h
      obtain ⟨pay, -, r, hf, h⟩ := h
      have href := read_header_refers all _ x st0 st s1 o hinv hr
      have href' : RefersTo st0.customers st0.items x { o with payment := pay } :=
        refersTo_congr _ _ x o _ rfl rfl href
      obtain ⟨hinv', hslot'⟩ := finish_payment_appendsFrom all x
        (hsub x (List.mem_cons_self _ _)) slot _ st0 s1 r
        (appendsFrom_tables all hinv (ht.2 _ _ rfl)) hslot href' hf
      exact ih.1 r.2 r.1 st' hsub2 hinv' hslot' h

/-- C17: for every customer table, item table and orders file, every order
that `read_orders` appends comes from a line of the file with more than 3
fields such that the order's customer pointer points at a record of the
customer table whose id is the line's customer id, and every line item holds
an item that is a record of the item table and whose id, with the line item's
quantity, is what one of the line's tokens gives. -/
theorem C17_appended_orders_refer_to_the_tables {D : Type} [DoubleModel D]
    (is_null : Nat → Bool) (file : String) (lines : List String) (st st' : Globals D)
    (h : read_orders is_null file (some lines) st = .ok st') :
    st'.customers = st.customers ∧ st'.items = st.items ∧
    ∃ new, st'.orders = st.orders ++ new ∧ ∀ o ∈ new, ∃ line ∈ lines,
      ∃ f0 f1 f2 tok toks cid c, split line ',' = f0 :: f1 :: f2 :: tok :: toks ∧
        stoi f0 = .ok cid ∧ st.customers.get? o.customer = some c ∧ c.customer_id = cid ∧
        ∀ li ∈ o.line_items, li.item ∈ st.items ∧
          ∃ t ∈ tok :: toks, parse_token t = .ok (li.item.item_id, li.quantity) :=
  (read_orders_loop_appendsFrom_aux is_null lines st lines).1 none st st' (fun _ hy => hy)
    (appendsFrom_same lines ⟨rfl, rfl, rfl⟩) (fun n hn => by cases hn) h

/-- C17 at the orders file of the end-to-end example. -/
theorem C17_appended_orders_refer_to_the_tables_witness :
    ({ example_tables with orders := [example_order] } : Globals Rat).customers =
      example_tables.customers ∧
    ({ example_tables with orders := [example_order] } : Globals Rat).items =
      example_tables.items ∧
    ∃ new, ({ example_tables with orders := [example_order] } : Globals Rat).orders =
        example_tables.orders ++ new ∧ ∀ o ∈ new, ∃ line ∈ example_orders,
      ∃ f0 f1 f2 tok toks cid c, split line ',' = f0 :: f1 :: f2 :: tok :: toks ∧
        stoi f0 = .ok cid ∧ example_tables.customers.get? o.customer = some c ∧
        c.customer_id = cid ∧
        ∀ li ∈ o.line_items, li.item ∈ example_tables.items ∧
          ∃ t ∈ tok :: toks, parse_token t = .ok (li.item.item_id, li.quantity) :=
  C17_appended_orders_refer_to_the_tables (fun _ => false) "orders.txt" example_orders
    example_tables _ (by decide)

/-! ## Skipping an unknown-customer order (C18) -/

/-- The line-item loop only appends to `cerr`. -/
theorem line_items_loop_prepend {D : Type} (items : List (Item D)) (toks : List String)
    (lis : List (LineItem D)) (pre c : List String) :
    line_items_loop items toks lis (pre ++ c) =
      Except.map (fun r => (r.1, pre ++ r.2)) (line_items_loop items toks lis c) := by
  induction toks generalizing lis c with
  | nil => rfl
  | cons tok toks ih =>
    rw [line_items_loop, line_items_loop]
    cases hpt : parse_token tok with
    | error e => rfl
    | ok pr =>
      simp only [ok_bind]
      cases hf : find_item items pr.1 with
      | some itm => exact ih _ _
      | none =>
        simp only []
        rw [List.append_assoc]
        exact ih _ _

theorem read_header_prepend {D : Type} [DoubleModel D] (b : Bool) (line : String)
    (pre : List String) (st : Globals D) :
    read_header b line (prepend_cerr pre st) =
      Except.map (Header.prepend_cerr pre) (read_header b line st) := by
  unfold read_header
  split
  · rename_i f0 f1 f2 tok toks hs
    cases h0 : stoi f0 with
    | error e => rfl
    | ok cid =>
      cases h1 : stoi f1 with
      | error e => rfl
      | ok oid =>
        simp only [ok_bind, prepend_cerr]
        cases hc : find_customer st.customers cid with
        | none =>
          simp only [pure_eq_ok, Except.map, Header.prepend_cerr, prepend_cerr,
            List.append_assoc]
        | some cust =>
          simp only [line_items_loop_prepend]
          cases hl : line_items_loop st.items (tok :: toks) [] st.cerr with
          | error e => rfl
          | ok r => rfl
  · simp only [pure_eq_ok, Except.map, Header.prepend_cerr, prepend_cerr, List.append_assoc]

theorem finish_order_prepend {D : Type} [DoubleModel D] (o : Order D) (pre : List String)
    (st : Globals D) :
    finish_order o (prepend_cerr pre st) =
      Except.map (prepend_cerr pre) (finish_order o st) := by
  unfold finish_order
  cases hp : o.payment with
  | nullptr => simp only [pure_eq_ok, Except.map, prepend_cerr, List.append_assoc]
  | obj p =>
    simp only []
    cases ht : o.total with
    | error e => rfl
    | ok o' => rfl
  | wild =>
    simp only []
    cases ht : o.total with
    | error e => rfl
    | ok o' => rfl

theorem finish_order_stale_prepend {D : Type} [DoubleModel D] (n : Nat) (o : Order D)
    (pre : List String) (st : Globals D) :
    finish_order_stale n o (prepend_cerr pre st) =
      Except.map (prepend_cerr pre) (finish_order_stale n o st) := by
  unfold finish_order_stale
  show (match st.orders.get? n with
    | some owner => _
    | none => _) = _
  cases hg : st.orders.get? n with
  | none => rfl
  | some owner =>
    simp only []
    cases hp : owner.payment with
    | nullptr => rfl
    | wild => rfl
    | obj p => rfl

theorem finish_payment_prepend {D : Type} [DoubleModel D] (slot : Option Nat) (o : Order D)
    (pre : List String) (st : Globals D) :
    finish_payment slot o (prepend_cerr pre st) =
      Except.map (fun r => (prepend_cerr pre r.1, r.2)) (finish_payment slot o st) := by
  unfold finish_payment
  cases hp : o.payment with
  | nullptr =>
    simp only [finish_order_prepend]
    cases hf : finish_order o st with
    | error e => rfl
    | ok s => rfl
  | obj p =>
    simp only [finish_order_prepend]
    cases hf : finish_order o st with
    | error e => rfl
    | ok s => rfl
  | wild =>
    cases slot with
    | none =>
      simp only [finish_order_prepend]
      cases hf : finish_order o st with
      | error e => rfl
      | ok s => rfl
    | some n =>
      simp only [finish_order_stale_prepend]
      cases hf : finish_order_stale n o st with
      | error e => rfl
      | ok s => rfl

/-- The loop of `read_orders` only appends to `cerr`: lines in front of the
diagnostics already written stay in front and change nothing else. -/
theorem read_orders_loop_prepend_aux {D : Type} [DoubleModel D] (is_null : Nat → Bool)
    (pre : List String) (lines : List String) :
    (∀ (slot : Option Nat) (st : Globals D),
      read_orders_loop is_null lines slot (prepend_cerr pre st) =
        Except.map (prepend_cerr pre) (read_orders_loop is_null lines slot st)) ∧
    (∀ (x : String) (slot : Option Nat) (st : Globals D),
      read_orders_loop is_null (x :: lines) slot (prepend_cerr pre st) =
        Except.map (prepend_cerr pre) (read_orders_loop is_null (x :: lines) slot st)) := by
  induction lines with
  | nil =>
    refine ⟨fun slot st => rfl, fun x slot st => ?_⟩
    rw [read_orders_loop, read_orders_loop, read_header_prepend]
    cases hr : read_header (is_null 0) x st with
    | error e => rfl
    | ok r =>
      cases r with
      | next s1 => rfl
      | awaiting o s1 =>
        simp only [Except.map, Header.prepend_cerr, ok_bind, finish_payment_prepend]
        cases hf : finish_payment slot o s1 with
        | error e => rfl
        | ok s2 => rfl
  | cons pline rest ih =>
    refine ⟨ih.2 pline, fun x slot st => ?_⟩
    rw [read_orders_loop, read_orders_loop, read_header_prepend]
    cases hr : read_header (is_null (rest.length + 1)) x st with
    | error e => rfl
    | ok r =>
      cases r with
      | next s1 => exact ih.2 pline slot s1
      | awaiting o s1 =>
        simp only [Except.map, Header.prepend_cerr, ok_bind]
        cases hs : select_payment (split pline ',') o.payment with
        | error e => rfl
        | ok pay =>
          simp only [ok_bind, finish_payment_prepend]
          cases hf : finish_payment slot { o with payment := pay } s1 with
          | error e => rfl
          | ok s2 => exact ih.1 s2.2 s2.1

/-- The orders a run produces do not depend on what `cerr` holds at its
start. -/
theorem orders_independent_of_cerr {D : Type} [DoubleModel D] (is_null : Nat → Bool)
    (lines : List String) (slot : Option Nat) (st : Globals D) (c : List String) :
    Except.map (fun s => s.orders)
        (read_orders_loop is_null lines slot { st with cerr := c }) =
      Except.map (fun s => s.orders)
        (read_orders_loop is_null lines slot { st with cerr := [] }) := by
  have h := (read_orders_loop_prepend_aux is_null c lines).1 slot { st with cerr := [] }
  have e : prepend_cerr c { st with cerr := [] } = { st with cerr := c } := by
    simp [prepend_cerr]
  rw [e] at h
  rw [h]
  cases read_orders_loop is_null lines slot { st with cerr := [] } with
  | error e => rfl
  | ok s => rfl

/-- C18: skipping an unknown-customer order does not disturb later orders. For
a header line `H` with more than 3 fields whose customer id and order id
`stoi` accepts and whose customer id matches no customer, a payment line `P`
with at most 3 fields and any remaining lines `R`, the run on `H, P, R` ends as
the run on `R` alone does, with the same orders collection (or the same
abnormal end). -/
theorem C18_skipped_order_leaves_later_orders_alone {D : Type} [DoubleModel D]
    (is_null : Nat → Bool) (file H P : String) (R : List String) (st : Globals D)
    (f0 f1 f2 tok : String) (toks : List String) (cid oid : Int)
    (hs : split H ',' = f0 :: f1 :: f2 :: tok :: toks)
    (h0 : stoi f0 = .ok cid) (h1 : stoi f1 = .ok oid)
    (hc : known_customer st.customers cid = false)
    (hp : (split P ',').length ≤ 3) :
    Except.map (fun s => s.orders) (read_orders is_null file (some (H :: P :: R)) st) =
      Except.map (fun s => s.orders) (read_orders is_null file (some R) st) := by
  unfold read_orders
  simp only []
  rw [unknown_customer_pair is_null H P R st f0 f1 f2 tok toks cid oid hs h0 h1 hc hp none]
  rw [orders_independent_of_cerr is_null R none st _]
  exact (orders_independent_of_cerr is_null R none st st.cerr).symm

/-- C18 at the header `7,100,2024-01-01,10-3` (no customer 7) and the payment
line `1,4567,12/25` in front of the orders file of the example. -/
theorem C18_skipped_order_leaves_later_orders_alone_witness :
    Except.map (fun s => s.orders)
        (read_orders (fun _ => false) "orders.txt"
          (some ("7,100,2024-01-01,10-3" :: "1,4567,12/25" :: example_orders)) example_tables) =
      Except.map (fun s => s.orders)
        (read_orders (fun _ => false) "orders.txt" (some example_orders) example_tables) ∧
    Except.map (fun s => s.orders)
        (read_orders (fun _ => false) "orders.txt" (some example_orders) example_tables) =
      .ok [example_order] :=
  ⟨C18_skipped_order_leaves_later_orders_alone (fun _ => false) "orders.txt"
      "7,100,2024-01-01,10-3" "1,4567,12/25" example_orders example_tables
      "7" "100" "2024-01-01" "10-3" [] 7 100 (by decide) (by decide) (by decide) (by decide)
      (by decide), by decide⟩

/-! ## A missing payment line (C19) -/

/-- C19: on the tables of the example, the file `H1, H2, P2` with the headers
`1,100,2024-01-01,10-3` and `1,101,2024-01-02,20-1` and the payment line
`2,jane@pay`. `H2` is consumed as the payment line of `H1` and, having more
than 3 fields, assigns no payment; the null test of line 281 then reads the
uninitialized `payment` member. When that is not null, `total()` stores through
it. Only when it happens to be null is the order of `H1` reported and skipped
and `P2` rejected as a header, so that no order is added. -/
theorem C19_missing_payment_line_reads_uninitialized_member :
    read_orders (fun _ => false) "orders.txt"
        (some ["1,100,2024-01-01,10-3", "1,101,2024-01-02,20-1", "2,jane@pay"])
        example_tables = .error .undefined_behaviour ∧
    read_orders (fun _ => true) "orders.txt"
        (some ["1,100,2024-01-01,10-3", "1,101,2024-01-02,20-1", "2,jane@pay"])
        example_tables =
      .ok { example_tables with
        cerr := ["Error: Payment not initialized for order ID 100",
                 "Error: Unexpected format in line: 2,jane@pay"] } := by
  decide

end Groceries
